import Mathlib

/-!
Verification development for the mimo-spec repository.

This file gives a shallow embedding, in Lean 4, of the pure core of the
repository: the canonical hasher (`mimo_spec/tools/mu_hash.py`), the schema
validators (`mimo_spec/tools/mimo_validate.py` and the legacy
`tools/mimo-validate.py`), the locator resolver and grouper
(`mimo_spec/tools/mimo_extract.py`), and the dedup-tracked pack step
(modelled from the spec, its implementation being absent from the provided
sources).  Python values parsed from YAML/JSON are modelled by the `Json`
inductive; Python truthiness, `str()`, `int()`, `base64.b64decode`,
`gzip.decompress` and `hashlib.sha256` are modelled by executable Lean
functions.  Theorems about the claims of the specification follow the
definitions.
-/

/-- Model of a Python value as produced by `yaml.safe_load` / consumed by
`json.dumps`: `None`, `bool`, `int`, `str`, `list`, `dict` (a dict is a list
of key-value pairs with, for values reachable from Python, distinct keys). -/
inductive Json where
  | null : Json
  | bool (b : Bool) : Json
  | int (n : Int) : Json
  | str (s : String) : Json
  | arr (xs : List Json) : Json
  | obj (entries : List (String × Json)) : Json

/-- First-match lookup in a dict's entry list (Python dicts have unique keys,
so first-match agrees with dict lookup on faithful inputs). -/
def jsonLookup : List (String × Json) → String → Option Json
  | [], _ => none
  | (k, v) :: rest, key => if k = key then some v else jsonLookup rest key

/-- Model of `data.get(k)` on a dict, with Python `None` (here `.null`) when
the key is missing or the receiver is not a dict. -/
def Json.get (j : Json) (k : String) : Json :=
  match j with
  | .obj l => (jsonLookup l k).getD .null
  | _ => .null

/-- Model of `data.get(k, default)`. -/
def Json.getD (j : Json) (k : String) (d : Json) : Json :=
  match j with
  | .obj l => (jsonLookup l k).getD d
  | _ => d

/-- Model of `k in data` for a dict. -/
def Json.hasKey (j : Json) (k : String) : Bool :=
  match j with
  | .obj l => (jsonLookup l k).isSome
  | _ => false

/-- Python truthiness: `None`, `False`, `0`, `""`, `[]`, `{}` are falsy. -/
def Json.truthy : Json → Bool
  | .null => false
  | .bool b => b
  | .int n => n != 0
  | .str s => s != ""
  | .arr xs => !xs.isEmpty
  | .obj l => !l.isEmpty

/-- Model of `isinstance(x, dict)`. -/
def Json.isDict : Json → Bool
  | .obj _ => true
  | _ => false

/-- Model of `isinstance(x, list)`. -/
def Json.isList : Json → Bool
  | .arr _ => true
  | _ => false

/-- Model of `isinstance(x, str)`. -/
def Json.isString : Json → Bool
  | .str _ => true
  | _ => false

/-- Model of `isinstance(x, int)` followed by use of the value as an integer.
In Python `bool` is a subclass of `int`, so `True` counts as `1` and `False`
as `0`. -/
def Json.asPyInt : Json → Option Int
  | .int n => some n
  | .bool b => some (if b then 1 else 0)
  | _ => none

/-- Model of the Python expression `a or b` (first truthy operand). -/
def pyOr (a b : Json) : Json := if a.truthy then a else b

/-- Escape one character of a Python `repr` of a string (single-quote
style, backslash escapes for quote, backslash and control characters). -/
def pyReprEscapeChar (c : Char) : String :=
  if c = '\\' then "\\\\"
  else if c = '\'' then "\\'"
  else if c = '\n' then "\\n"
  else if c = '\r' then "\\r"
  else if c = '\t' then "\\t"
  else if c.toNat < 32 then
    "\\x" ++ String.mk [Nat.digitChar (c.toNat / 16), Nat.digitChar (c.toNat % 16)]
  else String.singleton c

/-- Python `repr` of a string (single-quote style). -/
def pyStrRepr (s : String) : String :=
  "'" ++ String.join (s.data.map pyReprEscapeChar) ++ "'"

mutual

/-- Model of Python `str(x)`: identity on strings, `repr` on containers,
`"None"`, `"True"`, `"False"`, decimal for integers. -/
def pyStr : Json → String
  | .null => "None"
  | .bool true => "True"
  | .bool false => "False"
  | .int n => toString n
  | .str s => s
  | .arr xs => "[" ++ String.intercalate ", " (pyReprList xs) ++ "]"
  | .obj l => "\x7b" ++ String.intercalate ", " (pyReprEntries l) ++ "\x7d"

/-- Model of Python `repr(x)`, used by `str` on containers. -/
def pyRepr : Json → String
  | .null => "None"
  | .bool true => "True"
  | .bool false => "False"
  | .int n => toString n
  | .str s => pyStrRepr s
  | .arr xs => "[" ++ String.intercalate ", " (pyReprList xs) ++ "]"
  | .obj l => "\x7b" ++ String.intercalate ", " (pyReprEntries l) ++ "\x7d"

def pyReprList : List Json → List String
  | [] => []
  | x :: xs => pyRepr x :: pyReprList xs

def pyReprEntries : List (String × Json) → List String
  | [] => []
  | (k, v) :: rest => (pyStrRepr k ++ ": " ++ pyRepr v) :: pyReprEntries rest

end

/-- Digits of the decimal body of a Python integer literal: a digit sequence
in which single underscores may stand between digits. -/
def pyDigits : List Char → Option (List Char)
  | [] => some []
  | c :: rest =>
    if c.isDigit then (pyDigits rest).map (c :: ·)
    else if c = '_' then
      match rest with
      | d :: rest2 => if d.isDigit then (pyDigits rest2).map (d :: ·) else none
      | [] => none
    else none

/-- Model of Python `int(s)` on a string: optional surrounding whitespace,
optional sign, decimal digits with single underscores allowed between
digits; `none` models `ValueError`. -/
def pyIntOfString (s : String) : Option Int :=
  let chars := (s.data.dropWhile Char.isWhitespace).reverse.dropWhile Char.isWhitespace |>.reverse
  let (neg, body) :=
    match chars with
    | '-' :: rest => (true, rest)
    | '+' :: rest => (false, rest)
    | _ => (false, chars)
  match body with
  | [] => none
  | c :: _ =>
    if c.isDigit then
      (pyDigits body).map fun ds =>
        let n : Nat := ds.foldl (fun acc d => acc * 10 + (d.toNat - 48)) 0
        if neg then -(n : Int) else (n : Int)
    else none

/-- Model of Python `int(x)` on a parsed YAML value: integers pass through,
booleans become 0/1, strings are parsed, everything else raises. -/
def pyToInt : Json → Option Int
  | .int n => some n
  | .bool b => some (if b then 1 else 0)
  | .str s => pyIntOfString s
  | _ => none

/-! ### Canonical hasher: `mimo_spec/tools/mu_hash.py` -/

/-- Escape one character as `json.dumps` does with `ensure_ascii=False`:
only the quote, the backslash and control characters below 0x20 are escaped
(with the short forms for backspace, tab, newline, form feed and carriage
return, and lowercase `\u00XX` otherwise). -/
def jsonEscapeChar (c : Char) : String :=
  if c = '"' then "\\\""
  else if c = '\\' then "\\\\"
  else if c = '\x08' then "\\b"
  else if c = '\t' then "\\t"
  else if c = '\n' then "\\n"
  else if c = '\x0c' then "\\f"
  else if c = '\r' then "\\r"
  else if c.toNat < 32 then
    "\\u00" ++ String.mk [Nat.digitChar (c.toNat / 16), Nat.digitChar (c.toNat % 16)]
  else String.singleton c

/-- JSON string literal serialization used by `json.dumps`. -/
def jsonQuote (s : String) : String :=
  "\"" ++ String.join (s.data.map jsonEscapeChar) ++ "\""

/-- Strict code-point lexicographic comparison of character lists, the order
Python uses to compare strings. -/
def charsLt : List Char → List Char → Bool
  | [], [] => false
  | [], _ :: _ => true
  | _ :: _, [] => false
  | a :: as, b :: bs =>
    if a.toNat < b.toNat then true
    else if b.toNat < a.toNat then false
    else charsLt as bs

/-- Python string `<`. -/
def strLtB (a b : String) : Bool := charsLt a.data b.data

/-- Python string `<=`. -/
def strLeB (a b : String) : Bool := !strLtB b a

/-- Comparison used to sort a dict's serialized entries by key.  Python's
`sort_keys=True` sorts `dct.items()`; keys are unique in a dict, so only the
key comparison is ever consulted. -/
def entryKeyLe (a b : String × String) : Prop := strLeB a.1 b.1 = true

instance : DecidableRel entryKeyLe :=
  fun a b => inferInstanceAs (Decidable (strLeB a.1 b.1 = true))

/-- Stable sort of serialized dict entries by key (Python's `sorted` is a
stable sort and, on a faithful dict, compares only keys). -/
def sortEntries (l : List (String × String)) : List (String × String) :=
  List.insertionSort entryKeyLe l

mutual

/-- Model of `canonical_json` from `mu_hash.py`:
`json.dumps(obj, ensure_ascii=False, sort_keys=True, separators=(",", ":"))`.
Values of a mapping are serialized first and the serialized pairs are then
stably sorted by key; as the sort consults only keys, this produces the same
string as sorting the items first, and keeps the recursion structural. -/
def canonical_json : Json → String
  | .null => "null"
  | .bool true => "true"
  | .bool false => "false"
  | .int n => toString n
  | .str s => jsonQuote s
  | .arr xs => "[" ++ String.intercalate "," (canonicalList xs) ++ "]"
  | .obj l =>
    "\x7b" ++
      String.intercalate ","
        ((sortEntries (canonicalEntries l)).map fun e => jsonQuote e.1 ++ ":" ++ e.2) ++
      "\x7d"

def canonicalList : List Json → List String
  | [] => []
  | x :: xs => canonical_json x :: canonicalList xs

def canonicalEntries : List (String × Json) → List (String × String)
  | [] => []
  | (k, v) :: rest => (k, canonical_json v) :: canonicalEntries rest

end

/-! ### SHA-256 (model of `hashlib.sha256(...).hexdigest()`) -/

/-- Reduce modulo 2^32. -/
def w32 (x : Nat) : Nat := x % 4294967296

/-- Rotate a 32-bit word right by `n` bits. -/
def rotr32 (n x : Nat) : Nat := w32 ((x >>> n) ||| (x <<< (32 - n)))

def shaCh (x y z : Nat) : Nat := (x &&& y) ^^^ ((x ^^^ 4294967295) &&& z)

def shaMaj (x y z : Nat) : Nat := (x &&& y) ^^^ (x &&& z) ^^^ (y &&& z)

def shaBigSigma0 (x : Nat) : Nat := rotr32 2 x ^^^ rotr32 13 x ^^^ rotr32 22 x

def shaBigSigma1 (x : Nat) : Nat := rotr32 6 x ^^^ rotr32 11 x ^^^ rotr32 25 x

def shaSmallSigma0 (x : Nat) : Nat := rotr32 7 x ^^^ rotr32 18 x ^^^ (x >>> 3)

def shaSmallSigma1 (x : Nat) : Nat := rotr32 17 x ^^^ rotr32 19 x ^^^ (x >>> 10)

def sha256K : List Nat :=
  [1116352408, 1899447441, 3049323471, 3921009573, 961987163, 1508970993,
   2453635748, 2870763221, 3624381080, 310598401, 607225278, 1426881987,
   1925078388, 2162078206, 2614888103, 3248222580, 3835390401, 4022224774,
   264347078, 604807628, 770255983, 1249150122, 1555081692, 1996064986,
   2554220882, 2821834349, 2952996808, 3210313671, 3336571891, 3584528711,
   113926993, 338241895, 666307205, 773529912, 1294757372, 1396182291,
   1695183700, 1986661051, 2177026350, 2456956037, 2730485921, 2820302411,
   3259730800, 3345764771, 3516065817, 3600352804, 4094571909, 275423344,
   430227734, 506948616, 659060556, 883997877, 958139571, 1322822218,
   1537002063, 1747873779, 1955562222, 2024104815, 2227730452, 2361852424,
   2428436474, 2756734187, 3204031479, 3329325298]

def sha256H0 : List Nat :=
  [1779033703, 3144134277, 1013904242, 2773480762, 1359893119, 2600822924,
   528734635, 1541459225]

/-- Big-endian bytes of a value, fixed width in bytes. -/
def beBytes : Nat → Nat → List Nat
  | 0, _ => []
  | w + 1, n => (n >>> (8 * w)) % 256 :: beBytes w n

/-- SHA-256 padding: append 0x80, zeros to 56 mod 64, then the bit length as
eight big-endian bytes. -/
def sha256Pad (msg : List Nat) : List Nat :=
  msg ++ [0x80] ++ List.replicate ((119 - msg.length % 64) % 64) 0 ++ beBytes 8 (8 * msg.length)

/-- Split a list into chunks of 64 elements (the first argument is fuel,
sufficient whenever it is at least the list length). -/
def chunks64F : Nat → List Nat → List (List Nat)
  | _, [] => []
  | 0, _ => []
  | f + 1, a :: l => (a :: l).take 64 :: chunks64F f ((a :: l).drop 64)

/-- Split a list into chunks of 64 elements. -/
def chunks64 (l : List Nat) : List (List Nat) := chunks64F l.length l

/-- Big-endian 32-bit words of a 64-byte chunk. -/
def wordsOfChunk : List Nat → List Nat
  | b0 :: b1 :: b2 :: b3 :: rest => (((b0 * 256 + b1) * 256 + b2) * 256 + b3) :: wordsOfChunk rest
  | _ => []

/-- Extend 16 message words to the 64-entry message schedule. -/
def sha256Schedule (w : List Nat) (rounds : Nat) : List Nat :=
  match rounds with
  | 0 => w
  | r + 1 =>
    let i := w.length
    let next := w32 (shaSmallSigma1 (w.getD (i - 2) 0) + w.getD (i - 7) 0 +
      shaSmallSigma0 (w.getD (i - 15) 0) + w.getD (i - 16) 0)
    sha256Schedule (w ++ [next]) r

/-- One round of the SHA-256 compression function. -/
def sha256Round (st : Nat × Nat × Nat × Nat × Nat × Nat × Nat × Nat) (kw : Nat × Nat) :
    Nat × Nat × Nat × Nat × Nat × Nat × Nat × Nat :=
  let (a, b, c, d, e, f, g, h) := st
  let t1 := w32 (h + shaBigSigma1 e + shaCh e f g + kw.1 + kw.2)
  let t2 := w32 (shaBigSigma0 a + shaMaj a b c)
  (w32 (t1 + t2), a, b, c, w32 (d + t1), e, f, g)

/-- Compress one 64-byte chunk into the running 8-word hash state. -/
def sha256Compress (state : List Nat) (chunk : List Nat) : List Nat :=
  let w := sha256Schedule (wordsOfChunk chunk) 48
  let init : Nat × Nat × Nat × Nat × Nat × Nat × Nat × Nat :=
    (state.getD 0 0, state.getD 1 0, state.getD 2 0, state.getD 3 0,
     state.getD 4 0, state.getD 5 0, state.getD 6 0, state.getD 7 0)
  let (a, b, c, d, e, f, g, h) := (sha256K.zip w).foldl sha256Round init
  [w32 (state.getD 0 0 + a), w32 (state.getD 1 0 + b), w32 (state.getD 2 0 + c),
   w32 (state.getD 3 0 + d), w32 (state.getD 4 0 + e), w32 (state.getD 5 0 + f),
   w32 (state.getD 6 0 + g), w32 (state.getD 7 0 + h)]

/-- Lowercase hex digit. -/
def hexDigit (n : Nat) : Char :=
  if n < 10 then Char.ofNat (48 + n) else Char.ofNat (87 + n)

/-- Eight lowercase hex digits of a 32-bit word. -/
def hex32 (x : Nat) : String :=
  String.mk ((List.range 8).map fun i => hexDigit ((x >>> (4 * (7 - i))) % 16))

/-- Model of `sha256_hex` from `mu_hash.py`: the lowercase hex digest of the
SHA-256 hash of a byte sequence. -/
def sha256_hex (data : List Nat) : String :=
  String.join (((chunks64 (sha256Pad data)).foldl sha256Compress sha256H0).map hex32)

/-- Model of `sha256_prefixed` from `mu_hash.py`. -/
def sha256_prefixed (data : List Nat) : String := "sha256:" ++ sha256_hex data

/-- UTF-8 bytes of one character. -/
def utf8EncodeChar (c : Char) : List Nat :=
  let n := c.toNat
  if n < 0x80 then [n]
  else if n < 0x800 then [0xC0 ||| (n >>> 6), 0x80 ||| (n &&& 0x3F)]
  else if n < 0x10000 then
    [0xE0 ||| (n >>> 12), 0x80 ||| ((n >>> 6) &&& 0x3F), 0x80 ||| (n &&& 0x3F)]
  else
    [0xF0 ||| (n >>> 18), 0x80 ||| ((n >>> 12) &&& 0x3F),
     0x80 ||| ((n >>> 6) &&& 0x3F), 0x80 ||| (n &&& 0x3F)]

/-- Model of `s.encode("utf-8")`. -/
def utf8Encode (s : String) : List Nat :=
  (s.data.map utf8EncodeChar).flatten

/-! ### Base64 decoding: model of `base64.b64decode` (non-strict `binascii.a2b_base64`) -/

/-- Value of a base64 alphabet character, `none` for any other character. -/
def b64Val (c : Char) : Option Nat :=
  let n := c.toNat
  if 65 ≤ n ∧ n ≤ 90 then some (n - 65)
  else if 97 ≤ n ∧ n ≤ 122 then some (n - 97 + 26)
  else if 48 ≤ n ∧ n ≤ 57 then some (n - 48 + 52)
  else if c = '+' then some 62
  else if c = '/' then some 63
  else none

/-- State machine of CPython's non-strict `binascii.a2b_base64`: invalid
characters are skipped, a pad character ends the input once the current quad
has enough characters (two pads needed at quad position 2, one at 3), and a
quad left with 1-3 characters at the end of input is an error (`none`). -/
def a2bBase64 : List Char → Nat → Nat → Nat → List Nat → Option (List Nat)
  | [], qp, _, _, acc => if qp = 0 then some acc.reverse else none
  | c :: rest, qp, left, pads, acc =>
    if c = '=' then
      if 2 ≤ qp then
        if 4 ≤ qp + pads + 1 then some acc.reverse
        else a2bBase64 rest qp left (pads + 1) acc
      else a2bBase64 rest qp left pads acc
    else
      match b64Val c with
      | none => a2bBase64 rest qp left pads acc
      | some d =>
        let left2 := (left <<< 6) ||| d
        match qp with
        | 0 => a2bBase64 rest 1 left2 0 acc
        | 1 => a2bBase64 rest 2 left2 0 (((left2 >>> 4) &&& 255) :: acc)
        | 2 => a2bBase64 rest 3 left2 0 (((left2 >>> 2) &&& 255) :: acc)
        | _ => a2bBase64 rest 0 0 0 ((left2 &&& 255) :: acc)

/-- Model of `base64.b64decode(s.encode("utf-8"))` with default
`validate=False`; `none` models `binascii.Error`.  (Non-ASCII characters
encode to bytes outside the alphabet, which the state machine skips, so
working on characters is equivalent.) -/
def b64decode (s : String) : Option (List Nat) :=
  a2bBase64 s.data 0 0 0 []

/-! ### CRC-32 and DEFLATE/gzip decompression: model of `gzip.decompress` -/

/-- One bit step of the reflected CRC-32 polynomial 0xEDB88320. -/
def crc32Step (x : Nat) : Nat :=
  if x % 2 = 1 then (x >>> 1) ^^^ 0xEDB88320 else x >>> 1

/-- Fold one byte into a CRC-32 accumulator. -/
def crc32Byte (c b : Nat) : Nat :=
  crc32Step (crc32Step (crc32Step (crc32Step
    (crc32Step (crc32Step (crc32Step (crc32Step (c ^^^ (b &&& 255)))))))))

/-- CRC-32 of a byte sequence (as `zlib.crc32`). -/
def crc32 (data : List Nat) : Nat :=
  data.foldl crc32Byte 0xFFFFFFFF ^^^ 0xFFFFFFFF

/-- Bit cursor over a byte list; bits are consumed LSB-first within each
byte, as in DEFLATE. -/
structure Bs where
  bytes : List Nat
  bit : Nat

/-- Read one bit. -/
def Bs.readBit : Bs → Option (Nat × Bs)
  | ⟨[], _⟩ => none
  | ⟨b :: rest, k⟩ =>
    some ((b >>> k) &&& 1, if k = 7 then ⟨rest, 0⟩ else ⟨b :: rest, k + 1⟩)

/-- Read `n` bits, LSB-first. -/
def Bs.readBits : Nat → Bs → Option (Nat × Bs)
  | 0, bs => some (0, bs)
  | n + 1, bs => do
    let (b, bs1) ← bs.readBit
    let (v, bs2) ← Bs.readBits n bs1
    some (b ||| (v <<< 1), bs2)

/-- Skip to the next byte boundary. -/
def Bs.align : Bs → Bs
  | ⟨bytes, 0⟩ => ⟨bytes, 0⟩
  | ⟨[], _⟩ => ⟨[], 0⟩
  | ⟨_ :: rest, _⟩ => ⟨rest, 0⟩

/-- Read `n` whole bytes (cursor must be aligned); fails when fewer than `n`
bytes remain. -/
def Bs.readBytes (n : Nat) (bs : Bs) : Option (List Nat × Bs) :=
  let t := bs.bytes.take n
  if t.length = n then some (t, ⟨bs.bytes.drop n, bs.bit⟩) else none

/-- Number of symbols with code length `l`. -/
def huffCount (lengths : List Nat) (l : Nat) : Nat :=
  (lengths.filter (· = l)).length

/-- Symbols ordered by (code length, symbol), lengths 1..15; index base for
length `l` is the number of symbols of smaller positive length. -/
def huffSyms (lengths : List Nat) : List Nat :=
  ((List.range 15).map (· + 1)).flatMap fun l =>
    (lengths.enum.filter fun p => p.2 = l).map (·.1)

/-- Kraft discrepancy after all 15 lengths: negative means over-subscribed.
Returns `none` when over-subscribed, otherwise the remaining slack.  The
first argument of the worker counts the remaining levels. -/
def huffSlackGo (lengths : List Nat) : Nat → Nat → Nat → Option Nat
  | 0, _, left => some left
  | r + 1, l, left =>
    let c := huffCount lengths l
    if 2 * left < c then none
    else huffSlackGo lengths r (l + 1) (2 * left - c)

def huffSlack (lengths : List Nat) : Option Nat :=
  huffSlackGo lengths 15 1 1

/-- Worker for canonical-Huffman decoding; the first argument counts the
remaining code lengths to try (from 15 down). -/
def huffDecodeGo (lengths : List Nat) : Nat → Nat → Nat → Nat → Bs → Option (Nat × Bs)
  | 0, _, _, _, _ => none
  | r + 1, code, first, index, bs => do
    let (b, bs1) ← bs.readBit
    let code1 := code * 2 + b
    let count := huffCount lengths (15 - r)
    if code1 - first < count ∧ first ≤ code1 then
      some ((huffSyms lengths).getD (index + (code1 - first)) 0, bs1)
    else
      huffDecodeGo lengths r code1 ((first + count) * 2) (index + count) bs1

/-- Decode one canonical-Huffman symbol (as in zlib: walk code lengths 1..15
accumulating bits MSB-first). -/
def huffDecode (lengths : List Nat) (bs : Bs) : Option (Nat × Bs) :=
  huffDecodeGo lengths 15 0 0 0 bs

/-- Code lengths of the fixed literal/length alphabet. -/
def fixedLitLengths : List Nat :=
  List.replicate 144 8 ++ List.replicate 112 9 ++ List.replicate 24 7 ++ List.replicate 8 8

/-- Code lengths of the fixed distance alphabet. -/
def fixedDistLengths : List Nat := List.replicate 30 5

/-- Length codes 257-285: base length and extra-bit count per code. -/
def lengthCodes : List (Nat × Nat) :=
  [(3, 0), (4, 0), (5, 0), (6, 0), (7, 0), (8, 0), (9, 0),
   (10, 0), (11, 1), (13, 1), (15, 1), (17, 1), (19, 2), (23, 2),
   (27, 2), (31, 2), (35, 3), (43, 3), (51, 3), (59, 3), (67, 4),
   (83, 4), (99, 4), (115, 4), (131, 5), (163, 5), (195, 5), (227, 5),
   (258, 0)]

def lengthBase : List Nat := lengthCodes.map Prod.fst

def lengthExtra : List Nat := lengthCodes.map Prod.snd

/-- Distance codes 0-29: base distance and extra-bit count per code. -/
def distCodes : List (Nat × Nat) :=
  [(1, 0), (2, 0), (3, 0), (4, 0), (5, 1), (7, 1), (9, 2),
   (13, 2), (17, 3), (25, 3), (33, 4), (49, 4), (65, 5), (97, 5),
   (129, 6), (193, 6), (257, 7), (385, 7), (513, 8), (769, 8), (1025, 9),
   (1537, 9), (2049, 10), (3073, 10), (4097, 11), (6145, 11), (8193, 12), (12289, 12),
   (16385, 13), (24577, 13)]

def distBase : List Nat := distCodes.map Prod.fst

def distExtra : List Nat := distCodes.map Prod.snd

/-- Copy `len` bytes from `dist` back in the (reversed) output. -/
def lzCopy : Nat → Nat → List Nat → List Nat
  | 0, _, out => out
  | n + 1, dist, out => lzCopy n dist (out.getD (dist - 1) 0 :: out)

/-- Decode the literal/length symbol stream of one compressed block into the
reversed output, until the end-of-block symbol. -/
def inflateSymbols (fuel : Nat) (lit dist : List Nat) (bs : Bs) (out : List Nat) :
    Option (List Nat × Bs) :=
  match fuel with
  | 0 => none
  | fuel + 1 => do
    let (sym, bs1) ← huffDecode lit bs
    if sym < 256 then inflateSymbols fuel lit dist bs1 (sym :: out)
    else if sym = 256 then some (out, bs1)
    else if sym ≤ 285 then do
      let (eb, bs2) ← bs1.readBits (lengthExtra.getD (sym - 257) 0)
      let len := lengthBase.getD (sym - 257) 0 + eb
      let (dsym, bs3) ← huffDecode dist bs2
      if dsym ≤ 29 then do
        let (db, bs4) ← bs3.readBits (distExtra.getD dsym 0)
        let d := distBase.getD dsym 0 + db
        if d ≤ out.length then inflateSymbols fuel lit dist bs4 (lzCopy len d out)
        else none
      else none
    else none

/-- Read the dynamic-block code lengths (run-length encoded with symbols
16/17/18). -/
def readCodeLens (fuel : Nat) (clTable : List Nat) (n : Nat) (bs : Bs) (acc : List Nat) :
    Option (List Nat × Bs) :=
  match fuel with
  | 0 => none
  | fuel + 1 =>
    if acc.length ≥ n then if acc.length = n then some (acc.reverse, bs) else none
    else do
      let (sym, bs1) ← huffDecode clTable bs
      if sym < 16 then readCodeLens fuel clTable n bs1 (sym :: acc)
      else if sym = 16 then do
        let (eb, bs2) ← bs1.readBits 2
        match acc with
        | [] => none
        | prev :: _ => readCodeLens fuel clTable n bs2 (List.replicate (3 + eb) prev ++ acc)
      else if sym = 17 then do
        let (eb, bs2) ← bs1.readBits 3
        readCodeLens fuel clTable n bs2 (List.replicate (3 + eb) 0 ++ acc)
      else if sym = 18 then do
        let (eb, bs2) ← bs1.readBits 7
        readCodeLens fuel clTable n bs2 (List.replicate (11 + eb) 0 ++ acc)
      else none

/-- Order in which the code-length-code lengths are stored. -/
def clOrder : List Nat := [16, 17, 18, 0, 8, 7, 9, 6, 10, 5, 11, 4, 12, 3, 13, 2, 14, 1, 15]

/-- Scatter the `hclen` read values into the 19-entry code-length-code table. -/
def clLengths (vals : List Nat) : List Nat :=
  (List.range 19).map fun i =>
    match (clOrder.enum.find? fun p => p.2 = i) with
    | some p => vals.getD p.1 0
    | none => 0

/-- Validity of a literal/length table: complete and not over-subscribed
(zlib rejects both for the literal/length and code-length alphabets). -/
def completeTable (lengths : List Nat) : Bool :=
  huffSlack lengths = some 0

/-- Validity of a distance table: not over-subscribed, and incompleteness is
tolerated only when at most one code is present (zlib's compatibility case). -/
def distTableOk (lengths : List Nat) : Bool :=
  match huffSlack lengths with
  | none => false
  | some 0 => true
  | some _ => (lengths.filter (0 < ·)).length ≤ 1

/-- Decompress the DEFLATE block sequence; returns the reversed output and
the cursor after the final block. -/
def inflateBlocks (fuel : Nat) (bs : Bs) (out : List Nat) : Option (List Nat × Bs) :=
  match fuel with
  | 0 => none
  | fuel + 1 => do
    let (bfinal, bs1) ← bs.readBit
    let (btype, bs2) ← bs1.readBits 2
    let step ←
      if btype = 0 then do
        let bsA := bs2.align
        let (hdr, bsB) ← Bs.readBytes 4 bsA
        let len := hdr.getD 0 0 + 256 * hdr.getD 1 0
        -- NLEN must be the ones-complement of LEN; on byte input this is
        -- exactly a per-byte complement of the two LEN bytes.
        if hdr.getD 2 0 = 255 - hdr.getD 0 0 ∧ hdr.getD 3 0 = 255 - hdr.getD 1 0 then do
          let (dat, bsC) ← Bs.readBytes len bsB
          some (dat.reverse ++ out, bsC)
        else none
      else if btype = 1 then
        inflateSymbols (8 * bs2.bytes.length + 16) fixedLitLengths fixedDistLengths bs2 out
      else if btype = 2 then do
        let (hlit, bsA) ← bs2.readBits 5
        let (hdist, bsB) ← bsA.readBits 5
        let (hclen, bsC) ← bsB.readBits 4
        let (clVals, bsD) ← readClVals (hclen + 4) bsC []
        let cl := clLengths clVals
        if completeTable cl then do
          let (lens, bsE) ← readCodeLens (8 * bsD.bytes.length + 16) cl
            (hlit + 257 + (hdist + 1)) bsD []
          let lit := lens.take (hlit + 257)
          let dst := lens.drop (hlit + 257)
          if completeTable lit ∧ distTableOk dst then
            inflateSymbols (8 * bsE.bytes.length + 16) lit dst bsE out
          else none
        else none
      else none
    if bfinal = 1 then some step
    else inflateBlocks fuel step.2 step.1
where
  readClVals : Nat → Bs → List Nat → Option (List Nat × Bs)
    | 0, bs, acc => some (acc.reverse, bs)
    | n + 1, bs, acc => do
      let (v, bs1) ← bs.readBits 3
      readClVals n bs1 (v :: acc)

/-- Raw DEFLATE decompression of a byte stream: the decompressed bytes and
the bytes remaining after the final block (aligned to a byte boundary). -/
def inflate (bytes : List Nat) : Option (List Nat × List Nat) := do
  let (outRev, bs) ← inflateBlocks (bytes.length + 1) ⟨bytes, 0⟩ []
  some (outRev.reverse, bs.align.bytes)

/-- Little-endian value of a byte list. -/
def leVal (l : List Nat) : Nat :=
  l.foldr (fun b acc => acc * 256 + b) 0

/-- Parse one gzip member header, returning the bytes that follow it;
`none` models the header errors `gzip.decompress` raises. -/
def gzipHeader (bytes : List Nat) : Option (List Nat) :=
  match bytes with
  | 0x1f :: 0x8b :: cm :: flg :: rest =>
    if cm = 8 then do
      let r1 ← dropN 6 rest
      let r2 ← if flg &&& 4 ≠ 0 then do
          let xlen ← (do
            match r1 with
            | a :: b :: _ => some (a + 256 * b)
            | _ => none)
          dropN (2 + xlen) r1
        else some r1
      let r3 ← if flg &&& 8 ≠ 0 then dropZeroTerminated r2 else some r2
      let r4 ← if flg &&& 16 ≠ 0 then dropZeroTerminated r3 else some r3
      if flg &&& 2 ≠ 0 then dropN 2 r4 else some r4
    else none
  | _ => none
where
  dropN : Nat → List Nat → Option (List Nat)
    | 0, l => some l
    | _ + 1, [] => none
    | n + 1, _ :: l => dropN n l
  dropZeroTerminated : List Nat → Option (List Nat)
    | [] => none
    | 0 :: rest => some rest
    | _ :: rest => dropZeroTerminated rest

/-- Trailer check of one gzip member: the first four trailer bytes must hold
the CRC-32 of the decompressed data and the next four its length modulo
2^32, both little-endian (`_read_eof` in `gzip.py`). -/
def gzTrailerOk (c s data : List Nat) : Bool :=
  decide (leVal c = crc32 data ∧ leVal s = data.length % 4294967296)

/-- Decompress the sequence of gzip members, checking each member's CRC-32
and length trailer and consuming inter-member zero padding. -/
def gzipMembers (fuel : Nat) (bytes : List Nat) (acc : List Nat) : Option (List Nat) :=
  match fuel with
  | 0 => none
  | fuel + 1 => do
    let body ← gzipHeader bytes
    let (data, rest) ← inflate body
    match rest with
    | c0 :: c1 :: c2 :: c3 :: s0 :: s1 :: s2 :: s3 :: rest2 =>
      match gzTrailerOk [c0, c1, c2, c3] [s0, s1, s2, s3] data with
      | true =>
        let rest3 := rest2.dropWhile (· = 0)
        if rest3.isEmpty then some (acc ++ data)
        else gzipMembers fuel rest3 (acc ++ data)
      | false => none
    | _ => none

/-- Model of `gzip.decompress`: `none` models every exception it can raise
(bad magic, unknown method, truncation, bad CRC, bad length, trailing
garbage). -/
def gzipDecompress (bytes : List Nat) : Option (List Nat) :=
  if bytes.isEmpty then some [] else gzipMembers (bytes.length + 1) bytes []

/-- Decode chain applied by the validator to a `gz+b64` snapshot payload:
`gzip.decompress(base64.b64decode(b64.encode("utf-8")))`. -/
def gzB64Bytes (s : String) : Option (List Nat) :=
  (b64decode s).bind gzipDecompress

/-! ### Schema validators -/

/-- One validator finding, as built by `err` in both validators. -/
structure Diag where
  code : String
  path : String
  msg : String
deriving DecidableEq, Repr

/-- String-equality test on a parsed value (Python `x == "s"` for a value
coming from YAML). -/
def Json.eqStr (j : Json) (s : String) : Bool :=
  match j with
  | .str t => t = s
  | _ => false

/-- Test for the Python expression `x is True`. -/
def Json.isTrue : Json → Bool
  | .bool b => b
  | _ => false

namespace MimoValidate

/-- Model of `err` from `mimo_validate.py`. -/
def err (code path msg : String) : Diag := ⟨code, path, msg⟩

def REQUIRED_TOP_V1_0 : List String :=
  ["schema_version", "id", "meta", "summary", "pointer", "snapshot"]

def REQUIRED_TOP_V1_1 : List String :=
  ["schema_version", "mu_id", "content_hash", "idempotency", "meta", "summary",
   "pointer", "snapshot", "links", "privacy", "provenance"]

def REQUIRED_META : List String :=
  ["time", "source", "group_id", "order", "span", "has_assets", "has_struct_data"]

def LOCATOR_KINDS : List String :=
  ["line_range", "byte_range", "page_range", "time_range", "bbox"]

/-- Modelled from the spec: the JSON-Schema contract
`contracts/mu_v1_1.schema.json` is loaded by `validate_file` for v1.1
records but is not among the provided sources.  The spec treats it as an
opaque structural oracle whose one documented rejection is a tombstone
`scope` outside its enumerated values, so the model accepts a document
unless a tombstone is present whose `scope` is not one of the enumerated
scopes. -/
def mu_v1_1_schema_ok (data : Json) : Bool :=
  if data.hasKey "tombstone" then
    match (data.get "tombstone").get "scope" with
    | .str s => ["all", "pointer", "snapshot"].contains s
    | _ => false
  else true

/-- The `for k in required` loop of `validate_file`. -/
def requiredTopErrs (path : String) (data : Json) (required : List String) : List Diag :=
  (required.filter fun k => !data.hasKey k).map fun k => err "E_REQUIRED" path ("Missing: " ++ k)

/-- The v1.1 JSON-Schema enforcement step of `validate_file`. -/
def schemaErrs (path : String) (data : Json) (sv : String) : List Diag :=
  if sv = "1.1" then
    if mu_v1_1_schema_ok data then []
    else [err "E_SCHEMA" path "MU v1.1 schema validation failed"]
  else []

/-- The three top-level type checks of `validate_file`. -/
def typeErrs (path : String) (data : Json) : List Diag :=
  (if data.hasKey "meta" ∧ ¬(data.get "meta").isDict then
    [err "E_TYPE" path "meta must be dict"] else [])
  ++ (if data.hasKey "pointer" ∧ ¬(data.get "pointer").isList then
    [err "E_TYPE" path "pointer must be list"] else [])
  ++ (if data.hasKey "summary" ∧ ¬(data.get "summary").isString then
    [err "E_TYPE" path "summary must be string"] else [])

/-- The expression `data.get("meta", {}) if isinstance(data.get("meta", {}), dict) else {}`. -/
def metaOf (data : Json) : Json :=
  let m := data.getD "meta" (.obj [])
  if m.isDict then m else .obj []

/-- The `for k in REQUIRED_META` loop of `validate_file`. -/
def metaRequiredErrs (path : String) (meta : Json) : List Diag :=
  (REQUIRED_META.filter fun k => !meta.hasKey k).map fun k =>
    err "E_REQUIRED" path ("Missing meta: " ++ k)

/-- The `meta.source` type check of `validate_file`. -/
def sourceTypeErrs (path : String) (meta : Json) : List Diag :=
  let src := meta.get "source"
  if ¬src.isString ∧ ¬src.isDict then
    [err "E_TYPE" path "meta.source must be string (preferred) or dict (legacy)"]
  else []

/-- The asset/struct consistency and schema-version warnings of
`validate_file`, in emission order. -/
def metaWarns (path : String) (data meta : Json) (sv : String) : List Diag :=
  (if (meta.get "has_assets").isTrue ∧ ¬(meta.get "shared_assets").truthy then
    [err "W_ASSET" path "has_assets=true but shared_assets empty"] else [])
  ++ (if (meta.get "has_struct_data").isTrue ∧ ¬data.hasKey "struct_data" then
    [err "W_STRUCT" path "has_struct_data=true but struct_data missing"] else [])
  ++ (if sv ≠ "" ∧ sv ≠ "1.0" ∧ sv ≠ "1.1" then
    [err "W_SCHEMA" path ("schema_version=" ++ sv ++ " (expected 1.0 or 1.1)")] else [])

/-- The snapshot section of `validate_file` (executed when the snapshot is a
dict; otherwise nothing is emitted). -/
def snapshotDiags (path : String) (snap : Json) : List Diag × List Diag :=
  match snap with
  | .obj _ =>
    let kind := snap.get "kind"
    let codec := snap.get "codec"
    let kindErrs :=
      if (match kind with
          | .str s => ["text", "web", "audio", "image", "other"].contains s
          | _ => false) then []
      else [err "E_SNAPSHOT" path ("snapshot.kind invalid: " ++ pyStr kind)]
    let codecErrs :=
      if (match codec with
          | .str s => ["plain", "gz+b64"].contains s
          | _ => false) then []
      else [err "E_SNAPSHOT" path ("snapshot.codec invalid: " ++ pyStr codec)]
    let srcRef := snap.get "source_ref"
    let srcErrs :=
      if ¬srcRef.isDict ∨ ¬(srcRef.get "sha256").truthy ∨ ¬(srcRef.get "uri").truthy then
        [err "E_SNAPSHOT" path "snapshot.source_ref must include uri + sha256"]
      else []
    let payload := snap.get "payload"
    if ¬payload.isDict then
      (kindErrs ++ codecErrs ++ srcErrs ++ [err "E_SNAPSHOT" path "snapshot.payload must be dict"], [])
    else
      let plainErrs :=
        if codec.eqStr "plain" then
          if ¬payload.hasKey "text" ∨ ¬(payload.get "text").isString then
            [err "E_SNAPSHOT" path "snapshot.payload.text required for codec=plain"]
          else []
        else []
      let gzPair :=
        if codec.eqStr "gz+b64" then
          match payload.get "text_gz_b64" with
          | .str s =>
            match gzB64Bytes s with
            | some raw =>
              if raw.length > 20000 then
                (([] : List Diag), [err "W_SNAPSHOT" path "snapshot text > 20KB; consider splitting MU"])
              else ([], [])
            | none => ([err "E_SNAPSHOT" path "snapshot.payload not decodable"], [])
          | _ => ([err "E_SNAPSHOT" path "snapshot.payload.text_gz_b64 required for codec=gz+b64"], [])
        else ([], [])
      (kindErrs ++ codecErrs ++ srcErrs ++ plainErrs ++ gzPair.1, gzPair.2)
  | _ => ([], [])

/-- The locator-kind test of the pointer loop: the `kind` field must be a
string naming one of the five locator kinds. -/
def locatorKindOk (k : Json) : Bool :=
  match k with
  | .str s => LOCATOR_KINDS.contains s
  | _ => false

/-- The body of the `for i, p in enumerate(ptrs)` loop of `validate_file`. -/
def pointerEntryDiags (path : String) (i : Nat) (p : Json) : List Diag × List Diag :=
  if ¬p.isDict then
    ([err "E_POINTER" path ("pointer[" ++ toString i ++ "] must be object")], [])
  else if p.hasKey "uri" ∨ p.hasKey "sha256" ∨ p.hasKey "locator" then
    if ¬(p.get "uri").truthy ∨ ¬(p.get "sha256").truthy ∨ ¬(p.get "locator").isDict then
      ([err "E_POINTER" path ("pointer[" ++ toString i ++ "] must include uri + sha256 + locator")], [])
    else
      let loc := pyOr (p.get "locator") (.obj [])
      let kindErrs :=
        if locatorKindOk (loc.get "kind") then []
        else
          [err "E_POINTER" path
            ("pointer[" ++ toString i ++ "].locator.kind invalid: " ++ pyStr (loc.get "kind"))]
      let lineErrs :=
        if (loc.get "kind").eqStr "line_range" then
          let msg := "pointer[" ++ toString i ++ "].locator line_range invalid: start=" ++
            pyStr (loc.get "start") ++ " end=" ++ pyStr (loc.get "end")
          match pyToInt (loc.get "start"), pyToInt (loc.get "end") with
          | some s, some e =>
            if s < 1 ∨ e < 1 ∨ s > e then [err "E_LOCATOR" path msg] else []
          | _, _ => [err "E_LOCATOR" path msg]
        else []
      (kindErrs ++ lineErrs, [])
  else
    if (p.get "path").truthy ∧ (p.get "timestamp").truthy then
      ([], [err "W_POINTER_LEGACY" path
        ("pointer[" ++ toString i ++ "] uses legacy fields path/timestamp; prefer uri/sha256/locator")])
    else ([], [])

/-- The pointer section of `validate_file` (executed when the pointer field
is a list; otherwise nothing is emitted). -/
def pointerDiags (path : String) (ptrs : Json) : List Diag × List Diag :=
  match ptrs with
  | .arr l =>
    ((l.enum.map fun ip => (pointerEntryDiags path ip.1 ip.2).1).flatten,
     (l.enum.map fun ip => (pointerEntryDiags path ip.1 ip.2).2).flatten)
  | _ => ([], [])

/-- Model of `validate_file` from `mimo_validate.py` applied to the parsed
YAML document (the file reading and YAML parsing stay outside the model;
a non-mapping root is the `E_YAML` case of the source).  Errors and warnings
are accumulated in the source's emission order. -/
def validate_data (path : String) (data : Json) : List Diag × List Diag :=
  match data with
  | .obj _ =>
    let sv := pyStr (pyOr (data.get "schema_version") (.str ""))
    let required := if sv = "1.1" then REQUIRED_TOP_V1_1 else REQUIRED_TOP_V1_0
    let meta := metaOf data
    let snapPair := snapshotDiags path (data.get "snapshot")
    let ptrPair := pointerDiags path (data.get "pointer")
    (requiredTopErrs path data required
      ++ schemaErrs path data sv
      ++ typeErrs path data
      ++ metaRequiredErrs path meta
      ++ sourceTypeErrs path meta
      ++ snapPair.1 ++ ptrPair.1,
     metaWarns path data meta sv ++ snapPair.2 ++ ptrPair.2)
  | _ => ([err "E_YAML" path "YAML root must be a mapping"], [])

end MimoValidate

namespace LegacyValidate

/-- Model of `err` from the legacy `tools/mimo-validate.py`. -/
def err (code path msg : String) : Diag := ⟨code, path, msg⟩

def REQUIRED_TOP : List String :=
  ["schema_version", "id", "meta", "summary", "pointer", "snapshot_gz_b64"]

def REQUIRED_META : List String :=
  ["time", "source", "group_id", "order", "span", "has_assets", "has_struct_data"]

/-- Model of `validate_file` from the legacy `tools/mimo-validate.py`,
applied to the entries of the parsed YAML mapping. -/
def validate_data (path : String) (entries : List (String × Json)) : List Diag × List Diag :=
  let data := Json.obj entries
  let requiredErrs :=
    (REQUIRED_TOP.filter fun k => !data.hasKey k).map fun k =>
      err "E_REQUIRED" path ("Missing: " ++ k)
  let typeErrs :=
    (if data.hasKey "meta" ∧ ¬(data.get "meta").isDict then
      [err "E_TYPE" path "meta must be dict"] else [])
    ++ (if data.hasKey "pointer" ∧ ¬(data.get "pointer").isList then
      [err "E_TYPE" path "pointer must be list"] else [])
    ++ (if data.hasKey "summary" ∧ ¬(data.get "summary").isString then
      [err "E_TYPE" path "summary must be string"] else [])
  let meta :=
    let m := data.getD "meta" (.obj [])
    if m.isDict then m else .obj []
  let metaErrs :=
    (REQUIRED_META.filter fun k => !meta.hasKey k).map fun k =>
      err "E_REQUIRED" path ("Missing meta: " ++ k)
  let warns :=
    (if (meta.get "has_assets").isTrue ∧ ¬(meta.get "shared_assets").truthy then
      [err "W_ASSET" path "has_assets=true but shared_assets empty"] else [])
    ++ (if (meta.get "has_struct_data").isTrue ∧ ¬data.hasKey "struct_data" then
      [err "W_STRUCT" path "has_struct_data=true but struct_data missing"] else [])
    ++ (let sv := data.get "schema_version"
        if sv.truthy ∧ pyStr sv ≠ "1.0" then
          [err "W_SCHEMA" path ("schema_version=" ++ pyStr sv ++ " (expected 1.0)")] else [])
  let ptrErrs :=
    match data.get "pointer" with
    | .arr l =>
      (l.enum.map fun ip =>
        match ip.2 with
        | .obj _ =>
          if ¬ip.2.hasKey "type" ∨ ¬ip.2.hasKey "path" ∨ ¬ip.2.hasKey "timestamp" then
            [err "E_POINTER" path ("pointer[" ++ toString ip.1 ++ "] missing type/path/timestamp")]
          else []
        | _ => [err "E_POINTER" path ("pointer[" ++ toString ip.1 ++ "] must be dict")]).flatten
    | _ => []
  (requiredErrs ++ typeErrs ++ metaErrs ++ ptrErrs, warns)

end LegacyValidate

/-! ### Producer-side helpers used to build concrete payloads -/

/-- Character of one 6-bit value in the base64 alphabet. -/
def b64EncChar (n : Nat) : Char :=
  if n < 26 then Char.ofNat (65 + n)
  else if n < 52 then Char.ofNat (97 + (n - 26))
  else if n < 62 then Char.ofNat (48 + (n - 52))
  else if n = 62 then '+'
  else '/'

/-- Model of `base64.b64encode` on a byte list (character list form). -/
def b64encodeChars : List Nat → List Char
  | [] => []
  | [a] =>
    [b64EncChar (a >>> 2), b64EncChar ((a &&& 3) <<< 4), '=', '=']
  | [a, b] =>
    [b64EncChar (a >>> 2), b64EncChar (((a &&& 3) <<< 4) ||| (b >>> 4)),
     b64EncChar ((b &&& 15) <<< 2), '=']
  | a :: b :: c :: rest =>
    b64EncChar (a >>> 2) :: b64EncChar (((a &&& 3) <<< 4) ||| (b >>> 4)) ::
    b64EncChar (((b &&& 15) <<< 2) ||| (c >>> 6)) :: b64EncChar (c &&& 63) ::
    b64encodeChars rest

/-- Two little-endian bytes of a value below 65536. -/
def le2 (n : Nat) : List Nat := [n % 256, (n / 256) % 256]

/-- Four little-endian bytes of a value below 2^32. -/
def le4 (n : Nat) : List Nat :=
  [n % 256, (n >>> 8) % 256, (n >>> 16) % 256, (n >>> 24) % 256]

/-- A gzip stream holding `data` as a single stored (uncompressed) DEFLATE
block: a valid gzip encoding of `data` whenever `data` is at most 65535
bytes, each below 256. -/
def storedGz (data : List Nat) : List Nat :=
  [0x1f, 0x8b, 8, 0, 0, 0, 0, 0, 0, 0xff] ++ [1] ++
    le2 data.length ++ le2 (data.length ^^^ 0xFFFF) ++ data ++
    le4 (crc32 data) ++ le4 (data.length % 4294967296)

/-! ### Locator resolver and grouper: `mimo_spec/tools/mimo_extract.py` -/

/-- Character-list version of `str.startswith`; structural so that concrete
instances evaluate. -/
def leadsChars : List Char → List Char → Bool
  | [], _ => true
  | _ :: _, [] => false
  | a :: as, b :: bs => a = b && leadsChars as bs

/-- Model of `s.startswith(pre)`. -/
def strStarts (s pre : String) : Bool := leadsChars pre.data s.data

namespace MimoExtract

/-- Model of `str.split(sep)[0]`: the prefix up to the first separator. -/
def pySplitHead (sep : Char) (s : String) : String :=
  String.mk (s.data.takeWhile (· ≠ sep))

/-- Model of `order_key` from `mimo_extract.py`: the leading integer of
`meta.get("order", "1/1")` before `/`; on failure, the leading integer of
`meta.get("span", "0-0")` before `-`; on failure, 0. -/
def order_key (meta : Json) : Int :=
  match pyToInt (.str (pySplitHead '/' (pyStr (meta.getD "order" (.str "1/1"))))) with
  | some n => n
  | none =>
    match pyToInt (.str (pySplitHead '-' (pyStr (meta.getD "span" (.str "0-0"))))) with
    | some n => n
    | none => 0

/-- Sort key relation used by `items.sort(key=lambda x: order_key(x[1].get("meta", {})))`
in `main`, modelled on the loaded documents. -/
def muOrderLe (a b : Json) : Prop :=
  order_key (a.getD "meta" (.obj [])) ≤ order_key (b.getD "meta" (.obj []))

instance : DecidableRel muOrderLe :=
  fun a b =>
    inferInstanceAs (Decidable
      (order_key (a.getD "meta" (.obj [])) ≤ order_key (b.getD "meta" (.obj []))))

instance : IsTotal Json muOrderLe :=
  ⟨fun _ _ => Int.le_total _ _⟩

instance : IsTrans Json muOrderLe :=
  ⟨fun _ _ _ h1 h2 => Int.le_trans h1 h2⟩

/-- Model of the within-group sort of `main`: Python's `list.sort` is stable,
and a stable sort by a total key order is exactly insertion sort with a
non-strict comparator. -/
def sortGroup (mus : List Json) : List Json :=
  List.insertionSort muOrderLe mus

/-- Model of `resolve_pointer_snippet` from `mimo_extract.py`.  The
filesystem is modelled as a partial map sending a path to the `readlines()`
content of a readable regular file (`os.path.exists` holds exactly on its
domain). -/
def resolve_pointer_snippet (fs : String → Option (List String)) (pointer : Json) :
    Option String :=
  let loc := pointer.get "locator"
  if ¬loc.isDict ∨ ¬(loc.get "kind").eqStr "line_range" then none
  else
    match (loc.get "start").asPyInt, (loc.get "end").asPyInt with
    | some start, some stop =>
      if start < 1 ∨ stop < start then none
      else
        let picked : Option Json :=
          let pth0 := pointer.get "path"
          if pth0.truthy then some pth0
          else
            match pointer.get "uri" with
            | .str u =>
              if strStarts u "file://" then some (.str (u.drop 7))
              else if strStarts u "vault://" ∨ strStarts u "http" then none
              else some (.str u)
            | other => some other
        match picked with
        | none => none
        | some (.str ps) =>
          if ps = "" then none
          else
            match fs ps with
            | some lines =>
              some (String.join ((lines.drop (start.toNat - 1)).take (stop.toNat - (start.toNat - 1))))
            | none => none
        | some _ => none
    | _, _ => none

/-- The resolution contract exactly as claim C3 words it: kind `line_range`
with integer `start >= 1`, `end >= start`; the resolved path is the explicit
`path` field if present, else the `uri` with a `file://` prefix stripped;
`vault://` and the `http(s)` schemes are declined; any other `uri` is a bare
path; a path names a file exactly when it is in the filesystem map, and the
result is the joined 1-indexed inclusive line slice. -/
def resolveClaimC3 (fs : String → Option (List String)) (pointer : Json) :
    Option String :=
  let loc := pointer.get "locator"
  if ¬loc.isDict ∨ ¬(loc.get "kind").eqStr "line_range" then none
  else
    match (loc.get "start").asPyInt, (loc.get "end").asPyInt with
    | some start, some stop =>
      if start < 1 ∨ stop < start then none
      else
        let picked : Option Json :=
          if pointer.hasKey "path" then some (pointer.get "path")
          else
            match pointer.get "uri" with
            | .str u =>
              if strStarts u "file://" then some (.str (u.drop 7))
              else if strStarts u "vault://" ∨ strStarts u "http://" ∨
                  strStarts u "https://" then none
              else some (.str u)
            | other => some other
        match picked with
        | some (.str ps) =>
          match fs ps with
          | some lines =>
            some (String.join ((lines.drop (start.toNat - 1)).take (stop.toNat - (start.toNat - 1))))
          | none => none
        | _ => none
    | _, _ => none

/-- The resolution contract as the amended claim words it: as the original
claim, except that the `path` field is used only when truthy, any `uri`
beginning with `http` (not only the `http(s)` schemes) or `vault://` is
declined, and an empty resolved path is declined. -/
def resolveClaimC3Amended (fs : String → Option (List String)) (pointer : Json) :
    Option String :=
  let loc := pointer.get "locator"
  if ¬loc.isDict ∨ ¬(loc.get "kind").eqStr "line_range" then none
  else
    match (loc.get "start").asPyInt, (loc.get "end").asPyInt with
    | some start, some stop =>
      if start < 1 ∨ stop < start then none
      else
        let picked : Option Json :=
          if (pointer.get "path").truthy then some (pointer.get "path")
          else
            match pointer.get "uri" with
            | .str u =>
              if strStarts u "file://" then some (.str (u.drop 7))
              else if strStarts u "vault://" ∨ strStarts u "http" then none
              else some (.str u)
            | other => some other
        match picked with
        | none => none
        | some (.str ps) =>
          if ps = "" then none
          else
            match fs ps with
            | some lines =>
              some (String.join ((lines.drop (start.toNat - 1)).take (stop.toNat - (start.toNat - 1))))
            | none => none
        | some _ => none
    | _, _ => none

end MimoExtract

/-! ### Dedup-tracked pack step (modelled from the spec) -/

namespace MimoPack

/-- Modelled from the spec: the `(raw_sha256, locator, split)` triple of one
produced MU — a `line_range` locator with 1-indexed inclusive `start`/`end`
and a `split{index, total, window}` descriptor (§4.2); the implementation
(`write_mu_v1_1` and its chunk loop) is exercised by the test-suite but
absent from the provided sources. -/
structure MuCand where
  raw_sha256 : String
  locStart : Int
  locEnd : Int
  index : Int
  total : Int
  window : Int
deriving DecidableEq, Repr

/-- Modelled from the spec: `mu_key = hash(canonicalize({raw_sha256,
locator, split}))` (§4.1/§4.2). -/
def MuCand.mu_key (c : MuCand) : String :=
  sha256_prefixed (utf8Encode (canonical_json (.obj
    [("locator", .obj [("end", .int c.locEnd), ("kind", .str "line_range"),
       ("start", .int c.locStart)]),
     ("raw_sha256", .str c.raw_sha256),
     ("split", .obj [("index", .int c.index), ("total", .int c.total),
       ("window", .int c.window)])])))

/-- Modelled from the spec: partition a raw input of `numLines` lines into
consecutive windows of at most `w` lines (the final window may be shorter),
one candidate MU per window. -/
def chunkCands (rawSha : String) (numLines w : Nat) : List MuCand :=
  let total := (numLines + w - 1) / w
  (List.range total).map fun i =>
    ⟨rawSha, (i * w + 1 : Int), (min ((i + 1) * w) numLines : Int),
     (i + 1 : Int), (total : Int), (w : Int)⟩

/-- Modelled from the spec: `write_mu_v1_1` writes one MU under dedup policy
`skip` — the MU is emitted only when its `mu_key` is not already in the
run-scoped dedup set, and the set is extended with the key; the returned
flag says whether the MU was written. -/
def write_mu_v1_1 (muKey : String) (existing : List String) : Bool × List String :=
  if muKey ∈ existing then (false, existing) else (true, muKey :: existing)

/-- Modelled from the spec: one dedup-tracked run over a candidate sequence
with a single shared dedup set, returning the emitted (surviving) MUs and
the final set. -/
def packRun : List MuCand → List String → List MuCand × List String
  | [], seen => ([], seen)
  | c :: rest, seen =>
    let step := write_mu_v1_1 c.mu_key seen
    let tail := packRun rest step.2
    (if step.1 then c :: tail.1 else tail.1, tail.2)

end MimoPack

/-! ### Logical equality of parsed values (the hypothesis of claim C1) -/

mutual

/-- Two parsed values are equal as logical content: equal scalars, pointwise
equal lists, and mappings equal as sets of key-value pairs — a mapping's
entries may be reordered arbitrarily (`mid.Perm l2`) once its values are
related pointwise, and, being a Python dict, its keys are distinct. -/
inductive JsonEquiv : Json → Json → Prop where
  | null : JsonEquiv .null .null
  | bool (b : Bool) : JsonEquiv (.bool b) (.bool b)
  | int (n : Int) : JsonEquiv (.int n) (.int n)
  | str (s : String) : JsonEquiv (.str s) (.str s)
  | arr {xs ys : List Json} : JsonsEquiv xs ys → JsonEquiv (.arr xs) (.arr ys)
  | obj {l1 mid l2 : List (String × Json)} : EntriesEquiv l1 mid → mid.Perm l2 →
      (l1.map Prod.fst).Nodup → JsonEquiv (.obj l1) (.obj l2)

/-- Pointwise `JsonEquiv` on lists. -/
inductive JsonsEquiv : List Json → List Json → Prop where
  | nil : JsonsEquiv [] []
  | cons {x y : Json} {xs ys : List Json} :
      JsonEquiv x y → JsonsEquiv xs ys → JsonsEquiv (x :: xs) (y :: ys)

/-- Pointwise `JsonEquiv` on entry lists (equal keys in equal positions). -/
inductive EntriesEquiv : List (String × Json) → List (String × Json) → Prop where
  | nil : EntriesEquiv [] []
  | cons {k : String} {v w : Json} {l1 l2 : List (String × Json)} :
      JsonEquiv v w → EntriesEquiv l1 l2 →
      EntriesEquiv ((k, v) :: l1) ((k, w) :: l2)

end

/-! ### Concrete inputs used by the claims -/

/-- A 64-zero placeholder content hash, as the repository's tests use. -/
def sha0 : String :=
  "sha256:0000000000000000000000000000000000000000000000000000000000000000"

/-- Base64 of a stored-block gzip stream whose content is the two bytes
of `"hi"`. -/
def gzHiB64 : String := "H4sIAAAAAAAA/wECAP3/aGmsKpPYAgAAAA=="

/-- A record whose only pointer is new-style with an unknown locator kind. -/
def c5Record : Json := .obj
  [("pointer", .arr [.obj
    [("type", .str "raw"),
     ("uri", .str "vault://default/raw/a.txt"),
     ("sha256", .str sha0),
     ("locator", .obj [("kind", .str "zz"), ("start", .int 1), ("end", .int 2)])]])]

/-- A complete v1.1 record (the shape of `test_pointer_new_style_ok`) whose
pointer locator is `line_range` with `start=1, end=2`. -/
def c6Record : Json := .obj
  [("schema_version", .str "1.1"),
   ("mu_id", .str "mu_test"),
   ("content_hash", .str sha0),
   ("idempotency", .obj [("mu_key", .str sha0)]),
   ("meta", .obj
     [("time", .str "2026-02-21T00:00:00Z"), ("source", .str "test"),
      ("group_id", .str "g"), ("order", .str "1/1"), ("span", .str "1-1"),
      ("has_assets", .bool false), ("has_struct_data", .bool false)]),
   ("summary", .str "hi"),
   ("links", .obj
     [("corrects", .arr []), ("supersedes", .arr []), ("duplicate_of", .arr [])]),
   ("privacy", .obj
     [("level", .str "private"), ("redact", .str "none"), ("pii", .arr []),
      ("share_policy", .obj
        [("allow_snapshot", .bool true), ("allow_pointer", .bool true)])]),
   ("provenance", .obj [("tool", .str "test"), ("tool_version", .str "0")]),
   ("pointer", .arr [.obj
     [("type", .str "raw"),
      ("uri", .str "vault://default/raw/a.txt"),
      ("sha256", .str sha0),
      ("locator", .obj [("kind", .str "line_range"), ("start", .int 1), ("end", .int 2)])]]),
   ("snapshot", .obj
     [("kind", .str "text"), ("codec", .str "gz+b64"), ("size_bytes", .int 2),
      ("created_at", .str "2026-02-21T00:00:00Z"),
      ("source_ref", .obj
        [("uri", .str "vault://default/raw/a.txt"), ("sha256", .str sha0)]),
      ("payload", .obj [("text_gz_b64", .str gzHiB64)]),
      ("meta", .obj [])])]

/-- A record whose only pointer is legacy-style with an empty `path`. -/
def c9Record : Json := .obj
  [("pointer", .arr [.obj
    [("type", .str "file"), ("path", .str ""),
     ("timestamp", .str "2026-02-21T00:00:00Z")]])]

/-- Content of one gzip member of the oversized claim-C8 payload: 40 bytes
of `"a"`. -/
def c8MemberData : List Nat := List.replicate 40 97

/-- One stored-block gzip member holding `c8MemberData` (63 bytes, so its
base64 encoding is padding-free), written out byte by byte. -/
def c8MemberBytes : List Nat :=
  [0x1f, 0x8b, 8, 0, 0, 0, 0, 0, 0, 0xff, 1, 40, 0, 215, 255] ++
    List.replicate 40 97 ++ [37, 138, 91, 201, 40, 0, 0, 0]

/-- The oversized payload of claim C8: base64 of 501 concatenated gzip
members, which decompress to 501 * 40 = 20040 bytes — over the 20 KB cap. -/
def c8PayloadStr : String :=
  String.mk ((List.replicate 501 (b64encodeChars c8MemberBytes)).flatten)

/-- A complete legacy (v1.0) record carrying the oversized payload. -/
def c8LegacyEntries : List (String × Json) :=
  [("schema_version", .str "1.0"),
   ("id", .str "mu_test"),
   ("meta", .obj
     [("time", .str "2026-02-21T00:00:00Z"), ("source", .str "test"),
      ("group_id", .str "g"), ("order", .str "1/1"), ("span", .str "1-1"),
      ("has_assets", .bool false), ("has_struct_data", .bool false)]),
   ("summary", .str "hi"),
   ("pointer", .arr [.obj
     [("type", .str "file"), ("path", .str "/tmp/a.txt"),
      ("timestamp", .str "2026-02-21T00:00:00Z")]]),
   ("snapshot_gz_b64", .str c8PayloadStr)]

/-- The snapshot dict of the claim-C8 new-style record: a well-formed
`gz+b64` snapshot carrying the oversized payload. -/
def c8SnapEntries : List (String × Json) :=
  [("kind", .str "text"), ("codec", .str "gz+b64"), ("size_bytes", .int 20040),
   ("created_at", .str "2026-02-21T00:00:00Z"),
   ("source_ref", .obj
     [("uri", .str "vault://default/raw/a.txt"), ("sha256", .str sha0)]),
   ("payload", .obj [("text_gz_b64", .str c8PayloadStr)]),
   ("meta", .obj [])]

/-- The meta dict shared by the claim-C8 new-style record. -/
def c8MetaEntries : List (String × Json) :=
  [("time", .str "2026-02-21T00:00:00Z"), ("source", .str "test"),
   ("group_id", .str "g"), ("order", .str "1/1"), ("span", .str "1-1"),
   ("has_assets", .bool false), ("has_struct_data", .bool false)]

/-- A complete v1.1 record that is valid except for the oversized `gz+b64`
snapshot payload. -/
def c8StrictEntries : List (String × Json) :=
  [("schema_version", .str "1.1"),
   ("mu_id", .str "mu_test"),
   ("content_hash", .str sha0),
   ("idempotency", .obj [("mu_key", .str sha0)]),
   ("meta", .obj c8MetaEntries),
   ("summary", .str "hi"),
   ("links", .obj
     [("corrects", .arr []), ("supersedes", .arr []), ("duplicate_of", .arr [])]),
   ("privacy", .obj
     [("level", .str "private"), ("redact", .str "none"), ("pii", .arr []),
      ("share_policy", .obj
        [("allow_snapshot", .bool true), ("allow_pointer", .bool true)])]),
   ("provenance", .obj [("tool", .str "test"), ("tool_version", .str "0")]),
   ("pointer", .arr [.obj
     [("type", .str "raw"),
      ("uri", .str "vault://default/raw/a.txt"),
      ("sha256", .str sha0),
      ("locator", .obj [("kind", .str "line_range"), ("start", .int 1), ("end", .int 2)])]]),
   ("snapshot", .obj c8SnapEntries)]

/-- A minimal record whose `gz+b64` snapshot payload is base64 of `"hi"`,
which is not a gzip stream. -/
def c8WitEntries : List (String × Json) :=
  [("snapshot", Json.obj
    [("codec", Json.str "gz+b64"),
     ("payload", Json.obj [("text_gz_b64", Json.str "aGk")])])]

/-- The filesystem of the claim-C3 counterexample: one file whose name
starts with `http` without being an `http(s)` URI. -/
def c3Fs : String → Option (List String) :=
  fun p => if p = "httpnotes.txt" then some ["hello\n"] else none

/-- The pointer of the claim-C3 counterexample: a resolvable `line_range`
over the bare path `httpnotes.txt`. -/
def c3Pointer : Json := .obj
  [("type", .str "raw"),
   ("uri", .str "httpnotes.txt"),
   ("sha256", .str sha0),
   ("locator", .obj [("kind", .str "line_range"), ("start", .int 1), ("end", .int 1)])]

/-- A pointer with an explicit `path` and a `line_range` locator, as used by
the claim-C10 statement. -/
def c10Pointer (p : String) (s e : Int) : Json := .obj
  [("path", .str p),
   ("locator", .obj [("kind", .str "line_range"), ("start", .int s), ("end", .int e)])]

/-- The filesystem of the claim-C10 witness: one two-line file. -/
def c10Fs : String → Option (List String) :=
  fun q => if q = "notes.txt" then some ["a\n", "b\n"] else none

/-- Selector for the MUs whose sort key equals `k`, used to state sort
stability. -/
def c7Key (k : Int) (m : Json) : Bool :=
  MimoExtract.order_key (m.getD "meta" (.obj [])) = k

/-- An MU with `meta.order = "1/3"`. -/
def c7Mu1 : Json := .obj
  [("id", .str "mu_a"),
   ("meta", .obj [("group_id", .str "g"), ("order", .str "1/3")]),
   ("summary", .str "first chunk")]

/-- An MU with `meta.order = "2/3"`. -/
def c7Mu2 : Json := .obj
  [("id", .str "mu_b"),
   ("meta", .obj [("group_id", .str "g"), ("order", .str "2/3")]),
   ("summary", .str "second chunk")]

/-! ### Foundational lemmas -/

theorem mem_ite_cons_nil {c : Prop} [Decidable c] {x d : Diag} (h : d ∈ (if c then [x] else [])) :
    d = x := by
  split at h <;> simp_all

theorem mem_ite_nil_cons {c : Prop} [Decidable c] {x d : Diag} (h : d ∈ (if c then [] else [x])) :
    d = x := by
  split at h <;> simp_all

theorem String.append_cancel_left {a b c : String} (h : a ++ b = a ++ c) : b = c := by
  have hd := congrArg String.data h
  simp only [String.data_append] at hd
  have h2 := List.append_cancel_left hd
  cases b; cases c; cases h2; rfl

theorem missing_top_ne_meta (k m : String) :
    ("Missing: " ++ k) ≠ ("Missing meta: " ++ m) := by
  intro h
  have h2 : ("Missing: " ++ k).data.take 9 = ("Missing meta: " ++ m).data.take 9 := by rw [h]
  rw [String.data_append, String.data_append,
    List.take_append_of_le_length (by decide), List.take_append_of_le_length (by decide)] at h2
  exact absurd h2 (by decide)

namespace MimoValidate

theorem schemaErrs_code {path : String} {data : Json} {sv : String} {d : Diag}
    (h : d ∈ schemaErrs path data sv) : d.code = "E_SCHEMA" := by
  unfold schemaErrs at h
  split at h
  · split at h
    · simp at h
    · simp at h; subst h; rfl
  · simp at h

theorem typeErrs_code {path : String} {data : Json} {d : Diag}
    (h : d ∈ typeErrs path data) : d.code = "E_TYPE" := by
  unfold typeErrs at h
  rcases List.mem_append.mp h with h1 | h1
  · rcases List.mem_append.mp h1 with h2 | h2 <;>
      (split at h2 <;> simp at h2) <;> (subst h2; rfl)
  · split at h1 <;> simp at h1
    subst h1; rfl

theorem sourceTypeErrs_code {path : String} {meta : Json} {d : Diag}
    (h : d ∈ sourceTypeErrs path meta) : d.code = "E_TYPE" := by
  simp only [sourceTypeErrs] at h
  exact (mem_ite_cons_nil h) ▸ rfl

theorem metaRequiredErrs_mem {path : String} {meta : Json} {d : Diag}
    (h : d ∈ metaRequiredErrs path meta) :
    ∃ m ∈ REQUIRED_META, d = err "E_REQUIRED" path ("Missing meta: " ++ m) := by
  unfold metaRequiredErrs at h
  rcases List.mem_map.mp h with ⟨m, hm, hd⟩
  exact ⟨m, (List.mem_filter.mp hm).1, hd.symm⟩

theorem snapshotErrs_code {path : String} {snap : Json} {d : Diag}
    (h : d ∈ (snapshotDiags path snap).1) : d.code = "E_SNAPSHOT" := by
  match snap with
  | .null | .bool _ | .int _ | .str _ | .arr _ => simp [snapshotDiags] at h
  | .obj l =>
    simp only [snapshotDiags] at h
    split at h
    · simp only [List.mem_append] at h
      rcases h with ((h | h) | h) | h
      · exact (mem_ite_nil_cons h) ▸ rfl
      · exact (mem_ite_nil_cons h) ▸ rfl
      · exact (mem_ite_cons_nil h) ▸ rfl
      · simp at h; subst h; rfl
    · simp only [List.mem_append] at h
      rcases h with (((h | h) | h) | h) | h
      · exact (mem_ite_nil_cons h) ▸ rfl
      · exact (mem_ite_nil_cons h) ▸ rfl
      · exact (mem_ite_cons_nil h) ▸ rfl
      · split at h
        · exact (mem_ite_cons_nil h) ▸ rfl
        · simp at h
      · split at h
        · split at h
          · split at h
            · split at h <;> simp at h
            · simp at h; subst h; rfl
          · simp at h; subst h; rfl
        · simp at h

theorem pointerEntry_code {path : String} {i : Nat} {p : Json} {d : Diag}
    (h : d ∈ (pointerEntryDiags path i p).1) :
    d.code = "E_POINTER" ∨ d.code = "E_LOCATOR" := by
  unfold pointerEntryDiags at h
  split at h
  · simp at h; subst h; left; rfl
  · split at h
    · split at h
      · simp at h; subst h; left; rfl
      · simp only [List.mem_append] at h
        rcases h with h | h
        · split at h
          · simp at h
          · simp at h; subst h; left; rfl
        · split at h
          · split at h
            · split at h
              · simp at h; subst h; right; rfl
              · simp at h
            · simp at h; subst h; right; rfl
          · simp at h
    · split at h <;> simp at h

theorem pointerDiags_code {path : String} {ptrs : Json} {d : Diag}
    (h : d ∈ (pointerDiags path ptrs).1) :
    d.code = "E_POINTER" ∨ d.code = "E_LOCATOR" := by
  unfold pointerDiags at h
  split at h
  case h_2 => simp at h
  case h_1 =>
    simp only [List.mem_flatten, List.mem_map] at h
    obtain ⟨s, ⟨ip, _, hs⟩, hd⟩ := h
    exact pointerEntry_code (hs ▸ hd)

theorem requiredTopErrs_mem_iff {path : String} {data : Json} {req : List String} {k : String} :
    err "E_REQUIRED" path ("Missing: " ++ k) ∈ requiredTopErrs path data req ↔
      k ∈ req ∧ data.hasKey k = false := by
  unfold requiredTopErrs
  constructor
  · intro h
    rcases List.mem_map.mp h with ⟨k2, hk2, hd⟩
    have hmsg : ("Missing: " ++ k2) = ("Missing: " ++ k) := congrArg Diag.msg hd
    have hk : k2 = k := String.append_cancel_left hmsg
    subst hk
    have := List.mem_filter.mp hk2
    exact ⟨this.1, by simpa using this.2⟩
  · intro ⟨h1, h2⟩
    exact List.mem_map.mpr ⟨k, List.mem_filter.mpr ⟨h1, by simp [h2]⟩, rfl⟩

end MimoValidate

/-- Helper: full characterization of the top-level `E_REQUIRED` diagnostics
of `validate_data` on a mapping. -/
theorem validate_required_mem_iff (path : String) (l : List (String × Json)) (k : String) :
    MimoValidate.err "E_REQUIRED" path ("Missing: " ++ k) ∈
        (MimoValidate.validate_data path (.obj l)).1 ↔
      (k ∈ (if pyStr (pyOr ((Json.obj l).get "schema_version") (.str "")) = "1.1"
          then MimoValidate.REQUIRED_TOP_V1_1 else MimoValidate.REQUIRED_TOP_V1_0) ∧
        (Json.obj l).hasKey k = false) := by
  simp only [MimoValidate.validate_data, List.mem_append]
  constructor
  · intro h
    rcases h with (((((h | h) | h) | h) | h) | h) | h
    · exact MimoValidate.requiredTopErrs_mem_iff.mp h
    · have hc := MimoValidate.schemaErrs_code h; simp [MimoValidate.err] at hc
    · have hc := MimoValidate.typeErrs_code h; simp [MimoValidate.err] at hc
    · obtain ⟨m, _, hd⟩ := MimoValidate.metaRequiredErrs_mem h
      exact absurd (congrArg Diag.msg hd) (missing_top_ne_meta k m)
    · have hc := MimoValidate.sourceTypeErrs_code h; simp [MimoValidate.err] at hc
    · have hc := MimoValidate.snapshotErrs_code h; simp [MimoValidate.err] at hc
    · rcases MimoValidate.pointerDiags_code h with hc | hc <;> simp [MimoValidate.err] at hc
  · intro h
    exact Or.inl (Or.inl (Or.inl (Or.inl (Or.inl (Or.inl
      (MimoValidate.requiredTopErrs_mem_iff.mpr h))))))

/-- C4: the validator selects the required top-level field set by
`schema_version` — the string `"1.1"` selects the v1.1 set (which includes
`content_hash`) and anything else selects the v1.0 set; hence a record with
`schema_version="1.1"` missing `content_hash` yields `E_REQUIRED`, while the
identical record under any other `schema_version` yields no `E_REQUIRED`
for `content_hash`. -/
theorem schema_dispatch_c4 :
    (∀ (path : String) (l : List (String × Json)) (k : String),
      MimoValidate.err "E_REQUIRED" path ("Missing: " ++ k) ∈
          (MimoValidate.validate_data path (.obj l)).1 ↔
        (k ∈ (if pyStr (pyOr ((Json.obj l).get "schema_version") (.str "")) = "1.1"
            then MimoValidate.REQUIRED_TOP_V1_1 else MimoValidate.REQUIRED_TOP_V1_0) ∧
          (Json.obj l).hasKey k = false))
    ∧ (∀ (path : String) (l : List (String × Json)),
        pyStr (pyOr ((Json.obj l).get "schema_version") (.str "")) = "1.1" →
        (Json.obj l).hasKey "content_hash" = false →
        MimoValidate.err "E_REQUIRED" path "Missing: content_hash" ∈
          (MimoValidate.validate_data path (.obj l)).1)
    ∧ (∀ (path : String) (l : List (String × Json)),
        pyStr (pyOr ((Json.obj l).get "schema_version") (.str "")) ≠ "1.1" →
        MimoValidate.err "E_REQUIRED" path "Missing: content_hash" ∉
          (MimoValidate.validate_data path (.obj l)).1) := by
  refine ⟨validate_required_mem_iff, ?_, ?_⟩
  · intro path l hsv hmiss
    have h := (validate_required_mem_iff path l "content_hash").mpr
      (by rw [if_pos hsv]; exact ⟨by decide, hmiss⟩)
    exact h
  · intro path l hsv h
    have h2 := (validate_required_mem_iff path l "content_hash").mp h
    rw [if_neg hsv] at h2
    exact absurd h2.1 (by decide)

/-- Witness for C4 at the records of the spec's schema-dispatch test. -/
theorem schema_dispatch_c4_witness :
    (MimoValidate.err "E_REQUIRED" "p" "Missing: content_hash" ∈
      (MimoValidate.validate_data "p" (.obj [("schema_version", .str "1.1")])).1)
    ∧ (MimoValidate.err "E_REQUIRED" "p" "Missing: content_hash" ∉
      (MimoValidate.validate_data "p" (.obj [("schema_version", .str "1.0")])).1) :=
  ⟨schema_dispatch_c4.2.1 "p" [("schema_version", .str "1.1")] (by decide) (by decide),
   schema_dispatch_c4.2.2 "p" [("schema_version", .str "1.0")] (by decide)⟩

/-- A key whose looked-up value is truthy is present. -/
theorem Json.hasKey_of_get_truthy {p : Json} {k : String} (h : (p.get k).truthy = true) :
    p.hasKey k = true := by
  match p with
  | .null | .bool _ | .int _ | .str _ | .arr _ => simp [Json.get, Json.truthy] at h
  | .obj l =>
    simp only [Json.get, Json.hasKey] at *
    cases hl : jsonLookup l k <;> simp_all [Json.truthy]

/-- A key whose looked-up value is a dict is present. -/
theorem Json.hasKey_of_get_isDict {p : Json} {k : String} (h : (p.get k).isDict = true) :
    p.hasKey k = true := by
  match p with
  | .null | .bool _ | .int _ | .str _ | .arr _ => simp [Json.get, Json.isDict] at h
  | .obj l =>
    simp only [Json.get, Json.hasKey] at *
    cases hl : jsonLookup l k <;> simp_all [Json.isDict]

/-- The source's `p.get("locator") or {}` is the locator itself whenever the
locator is a dict. -/
theorem pyOr_dict_self {j : Json} (h : j.isDict = true) : pyOr j (.obj []) = j := by
  match j with
  | .null | .bool _ | .int _ | .str _ | .arr _ => simp [Json.isDict] at h
  | .obj l => cases l <;> simp [pyOr, Json.truthy]

/-- An indexed element of a list is an element of its enumeration. -/
theorem mem_enum_of_get? {α : Type} {l : List α} {i : Nat} {x : α} (h : l.get? i = some x) :
    (i, x) ∈ l.enum := by
  rw [List.get?_eq_getElem?] at h
  have hg : l.enum[i]? = some (i, x) := by
    rw [List.getElem?_enum, h]; rfl
  exact List.getElem?_mem hg

/-- Error diagnostics of one pointer entry propagate into `validate_data`. -/
theorem pointer_errs_sub {path : String} {l : List (String × Json)} {ptrs : List Json}
    (hp : (Json.obj l).get "pointer" = .arr ptrs) {i : Nat} {p : Json}
    (hip : ptrs.get? i = some p) {d : Diag}
    (hd : d ∈ (MimoValidate.pointerEntryDiags path i p).1) :
    d ∈ (MimoValidate.validate_data path (.obj l)).1 := by
  simp only [MimoValidate.validate_data, List.mem_append]
  refine Or.inr ?_
  unfold MimoValidate.pointerDiags
  rw [hp]
  simp only [List.mem_flatten, List.mem_map]
  exact ⟨_, ⟨(i, p), mem_enum_of_get? hip, rfl⟩, hd⟩

/-- Warning diagnostics of one pointer entry propagate into `validate_data`. -/
theorem pointer_warns_sub {path : String} {l : List (String × Json)} {ptrs : List Json}
    (hp : (Json.obj l).get "pointer" = .arr ptrs) {i : Nat} {p : Json}
    (hip : ptrs.get? i = some p) {d : Diag}
    (hd : d ∈ (MimoValidate.pointerEntryDiags path i p).2) :
    d ∈ (MimoValidate.validate_data path (.obj l)).2 := by
  simp only [MimoValidate.validate_data, List.mem_append]
  refine Or.inr ?_
  unfold MimoValidate.pointerDiags
  rw [hp]
  simp only [List.mem_flatten, List.mem_map]
  exact ⟨_, ⟨(i, p), mem_enum_of_get? hip, rfl⟩, hd⟩

/-- C5 counterexample: a record with a new-style pointer whose locator kind
is not one of the five enumerated kinds yields no `E_LOCATOR` diagnostic at
all — the emitted diagnostic carries code `E_POINTER`. -/
theorem locator_kind_c5_counterexample :
    ((MimoValidate.validate_data "p" c5Record).1.filter (fun d => d.code == "E_LOCATOR")) = []
    ∧ MimoValidate.err "E_POINTER" "p" "pointer[0].locator.kind invalid: zz" ∈
        (MimoValidate.validate_data "p" c5Record).1 := by
  constructor
  · decide
  · decide

/-- C5 (amended): for every new-style pointer entry (uri, sha256 truthy and
locator a dict) whose locator kind is not one of the five enumerated kinds,
validation yields an `E_POINTER` diagnostic whose message names the invalid
locator kind. -/
theorem locator_kind_c5_amended :
    ∀ (path : String) (l : List (String × Json)) (ptrs : List Json) (i : Nat) (p : Json),
      (Json.obj l).get "pointer" = .arr ptrs → ptrs.get? i = some p →
      p.isDict = true →
      (p.get "uri").truthy = true → (p.get "sha256").truthy = true →
      (p.get "locator").isDict = true →
      MimoValidate.locatorKindOk ((p.get "locator").get "kind") = false →
      MimoValidate.err "E_POINTER" path
          ("pointer[" ++ toString i ++ "].locator.kind invalid: " ++
            pyStr ((p.get "locator").get "kind"))
        ∈ (MimoValidate.validate_data path (.obj l)).1 := by
  intro path l ptrs i p hp hip hdict huri hsha hloc hkind
  refine pointer_errs_sub hp hip ?_
  unfold MimoValidate.pointerEntryDiags
  rw [if_neg (by simp [hdict]), if_pos (Or.inl (Json.hasKey_of_get_truthy huri)),
    if_neg (by simp [huri, hsha, hloc])]
  simp only [pyOr_dict_self hloc, List.mem_append]
  left
  rw [if_neg (by simp [hkind])]
  simp

/-- Witness for the amended C5 at the record of the counterexample. -/
theorem locator_kind_c5_witness :
    MimoValidate.err "E_POINTER" "p" "pointer[0].locator.kind invalid: zz" ∈
      (MimoValidate.validate_data "p" c5Record).1 := by
  have h := locator_kind_c5_amended "p"
    [("pointer", .arr [.obj
      [("type", .str "raw"),
       ("uri", .str "vault://default/raw/a.txt"),
       ("sha256", .str sha0),
       ("locator", .obj [("kind", .str "zz"), ("start", .int 1), ("end", .int 2)])]])]
    _ 0 _ rfl rfl rfl rfl rfl rfl rfl
  exact h

/-- C9 counterexample: a pointer entry carrying `path` and `timestamp` keys
(with `path` empty) and none of the new-style keys is accepted without
error but yields no `W_POINTER_LEGACY` warning. -/
theorem legacy_pointer_c9_counterexample :
    ((MimoValidate.validate_data "p" c9Record).2.filter
        (fun d => d.code == "W_POINTER_LEGACY")) = []
    ∧ ((MimoValidate.validate_data "p" c9Record).1.filter
        (fun d => d.code == "E_POINTER" || d.code == "E_LOCATOR")) = [] := by
  constructor
  · decide
  · decide

/-- C9 (amended): a pointer entry that is a dict with none of the
`uri`/`sha256`/`locator` keys never contributes an error, and contributes
the `W_POINTER_LEGACY` warning exactly when both `path` and `timestamp` are
truthy (present and non-empty). -/
theorem legacy_pointer_c9_amended :
    (∀ (path : String) (i : Nat) (p : Json), p.isDict = true →
      p.hasKey "uri" = false → p.hasKey "sha256" = false → p.hasKey "locator" = false →
      (MimoValidate.pointerEntryDiags path i p).1 = []
      ∧ (MimoValidate.pointerEntryDiags path i p).2 =
          (if (p.get "path").truthy ∧ (p.get "timestamp").truthy then
            [MimoValidate.err "W_POINTER_LEGACY" path
              ("pointer[" ++ toString i ++
                "] uses legacy fields path/timestamp; prefer uri/sha256/locator")]
          else []))
    ∧ (∀ (path : String) (l : List (String × Json)) (ptrs : List Json) (i : Nat) (p : Json),
        (Json.obj l).get "pointer" = .arr ptrs → ptrs.get? i = some p →
        p.isDict = true → p.hasKey "uri" = false → p.hasKey "sha256" = false →
        p.hasKey "locator" = false →
        (p.get "path").truthy = true → (p.get "timestamp").truthy = true →
        MimoValidate.err "W_POINTER_LEGACY" path
            ("pointer[" ++ toString i ++
              "] uses legacy fields path/timestamp; prefer uri/sha256/locator")
          ∈ (MimoValidate.validate_data path (.obj l)).2) := by
  have main : ∀ (path : String) (i : Nat) (p : Json), p.isDict = true →
      p.hasKey "uri" = false → p.hasKey "sha256" = false → p.hasKey "locator" = false →
      (MimoValidate.pointerEntryDiags path i p).1 = []
      ∧ (MimoValidate.pointerEntryDiags path i p).2 =
          (if (p.get "path").truthy ∧ (p.get "timestamp").truthy then
            [MimoValidate.err "W_POINTER_LEGACY" path
              ("pointer[" ++ toString i ++
                "] uses legacy fields path/timestamp; prefer uri/sha256/locator")]
          else []) := by
    intro path i p hdict huri hsha hloc
    unfold MimoValidate.pointerEntryDiags
    rw [if_neg (by simp [hdict]), if_neg (by simp [huri, hsha, hloc])]
    constructor
    · split <;> rfl
    · split <;> rfl
  refine ⟨main, ?_⟩
  intro path l ptrs i p hp hip hdict huri hsha hloc hpath hts
  refine pointer_warns_sub hp hip ?_
  rw [(main path i p hdict huri hsha hloc).2, if_pos ⟨hpath, hts⟩]
  simp

/-- Witness for the amended C9: a well-formed legacy pointer entry yields
the warning. -/
theorem legacy_pointer_c9_witness :
    MimoValidate.err "W_POINTER_LEGACY" "p"
        "pointer[0] uses legacy fields path/timestamp; prefer uri/sha256/locator"
      ∈ (MimoValidate.validate_data "p" (.obj [("pointer", .arr [.obj
          [("type", .str "file"), ("path", .str "/tmp/a.txt"),
           ("timestamp", .str "2026-02-21T00:00:00Z")]])])).2 := by
  have h := legacy_pointer_c9_amended.2 "p"
    [("pointer", .arr [.obj
      [("type", .str "file"), ("path", .str "/tmp/a.txt"),
       ("timestamp", .str "2026-02-21T00:00:00Z")]])]
    _ 0 _ rfl rfl rfl rfl rfl rfl rfl rfl
  exact h

/-- C6: a new-style pointer whose `line_range` locator has `start=3, end=2`
always yields the `E_LOCATOR` diagnostic, whatever else the record holds;
and a complete v1.1 record whose locator is `line_range` with
`start=1, end=2` yields no errors at all. -/
theorem locator_range_c6 :
    (∀ (path : String) (l : List (String × Json)) (ptrs : List Json) (i : Nat) (p : Json),
      (Json.obj l).get "pointer" = .arr ptrs → ptrs.get? i = some p →
      p.isDict = true → (p.get "uri").truthy = true → (p.get "sha256").truthy = true →
      (p.get "locator").isDict = true →
      (p.get "locator").get "kind" = .str "line_range" →
      (p.get "locator").get "start" = .int 3 → (p.get "locator").get "end" = .int 2 →
      MimoValidate.err "E_LOCATOR" path
          ("pointer[" ++ toString i ++ "].locator line_range invalid: start=3 end=2")
        ∈ (MimoValidate.validate_data path (.obj l)).1)
    ∧ (MimoValidate.validate_data "p" c6Record).1 = [] := by
  constructor
  · intro path l ptrs i p hp hip hdict huri hsha hloc hkind hstart hend
    refine pointer_errs_sub hp hip ?_
    unfold MimoValidate.pointerEntryDiags
    rw [if_neg (by simp [hdict]), if_pos (Or.inl (Json.hasKey_of_get_truthy huri)),
      if_neg (by simp [huri, hsha, hloc])]
    simp only [pyOr_dict_self hloc, hkind, hstart, hend, List.mem_append]
    right
    have hmsg : "pointer[" ++ toString i ++ "].locator line_range invalid: start=" ++
        pyStr (Json.int 3) ++ " end=" ++ pyStr (Json.int 2) =
        "pointer[" ++ toString i ++ "].locator line_range invalid: start=3 end=2" := by
      have h3 : pyStr (Json.int 3) = "3" := rfl
      have h2 : pyStr (Json.int 2) = "2" := rfl
      rw [h3, h2]
      simp only [String.append_assoc]
      congr 1
    rw [← hmsg]
    simp [pyToInt, Json.eqStr]
  · decide

/-- Witness for C6: a record carrying the inverted range yields `E_LOCATOR`. -/
theorem locator_range_c6_witness :
    MimoValidate.err "E_LOCATOR" "p" "pointer[0].locator line_range invalid: start=3 end=2" ∈
      (MimoValidate.validate_data "p" (.obj [("pointer", .arr [.obj
        [("uri", .str "vault://default/raw/a.txt"), ("sha256", .str sha0),
         ("locator", .obj
           [("kind", .str "line_range"), ("start", .int 3), ("end", .int 2)])]])])).1 := by
  have h := locator_range_c6.1 "p"
    [("pointer", .arr [.obj
      [("uri", .str "vault://default/raw/a.txt"), ("sha256", .str sha0),
       ("locator", .obj
         [("kind", .str "line_range"), ("start", .int 3), ("end", .int 2)])]])]
    _ 0 _ rfl rfl rfl rfl rfl rfl rfl rfl rfl
  exact h

/-- Snapshot errors propagate into `validate_data` on a mapping. -/
theorem snapshot_errs_sub {path : String} {l : List (String × Json)} {d : Diag}
    (hd : d ∈ (MimoValidate.snapshotDiags path ((Json.obj l).get "snapshot")).1) :
    d ∈ (MimoValidate.validate_data path (.obj l)).1 := by
  simp only [MimoValidate.validate_data, List.mem_append]
  exact Or.inl (Or.inr hd)

/-- Snapshot warnings propagate into `validate_data` on a mapping. -/
theorem snapshot_warns_sub {path : String} {l : List (String × Json)} {d : Diag}
    (hd : d ∈ (MimoValidate.snapshotDiags path ((Json.obj l).get "snapshot")).2) :
    d ∈ (MimoValidate.validate_data path (.obj l)).2 := by
  simp only [MimoValidate.validate_data, List.mem_append]
  exact Or.inl (Or.inr hd)

set_option maxRecDepth 20000

/-- The literal member bytes are exactly the stored-block gzip encoding of
the member data produced by the builder. -/
theorem c8MemberBytes_eq : c8MemberBytes = storedGz c8MemberData := by decide

/-- The trailer of one claim-C8 member carries the correct CRC-32 and
length. -/
theorem c8TrailerTrue :
    gzTrailerOk [37, 138, 91, 201] [40, 0, 0, 0] c8MemberData = true := by decide

/-- One step of `gzipMembers`, factored through explicit header and inflate
results. -/
theorem gzipMembers_cons (fuel : Nat) (bytes acc body data : List Nat)
    (c0 c1 c2 c3 s0 s1 s2 s3 : Nat) (rest2 : List Nat)
    (h1 : gzipHeader bytes = some body)
    (h2 : inflate body = some (data, c0 :: c1 :: c2 :: c3 :: s0 :: s1 :: s2 :: s3 :: rest2)) :
    gzipMembers (fuel + 1) bytes acc =
      (match gzTrailerOk [c0, c1, c2, c3] [s0, s1, s2, s3] data with
       | true =>
         if (rest2.dropWhile (· = 0)).isEmpty then some (acc ++ data)
         else gzipMembers fuel (rest2.dropWhile (· = 0)) (acc ++ data)
       | false => none) := by
  simp only [gzipMembers, h1, bind, Option.bind, h2]
  try rfl

/-- The gzip header of one claim-C8 member parses and leaves the DEFLATE
body. -/
theorem c8HeaderStep (rest : List Nat) :
    gzipHeader (c8MemberBytes ++ rest) =
      some ([1, 40, 0, 215, 255] ++ List.replicate 40 97 ++
        [37, 138, 91, 201, 40, 0, 0, 0] ++ rest) := rfl

/-- The stored DEFLATE block of one claim-C8 member inflates to the member
data and leaves the trailer. -/
theorem c8InflateStep (rest : List Nat) :
    inflate ([1, 40, 0, 215, 255] ++ List.replicate 40 97 ++
        [37, 138, 91, 201, 40, 0, 0, 0] ++ rest) =
      some (c8MemberData, 37 :: 138 :: 91 :: 201 :: 40 :: 0 :: 0 :: 0 :: rest) := rfl

/-- Consuming one claim-C8 member from the front of a gzip stream. -/
theorem gzMemStep (fuel : Nat) (rest acc : List Nat) :
    gzipMembers (fuel + 1) (c8MemberBytes ++ rest) acc =
      (if (rest.dropWhile (· = 0)).isEmpty then some (acc ++ c8MemberData)
       else gzipMembers fuel (rest.dropWhile (· = 0)) (acc ++ c8MemberData)) := by
  rw [gzipMembers_cons fuel (c8MemberBytes ++ rest) acc _ c8MemberData
    37 138 91 201 40 0 0 0 rest (c8HeaderStep rest) (c8InflateStep rest), c8TrailerTrue]

/-- A concatenation of `k + 1` claim-C8 members decompresses to `k + 1`
copies of the member data. -/
theorem gzRep (k : Nat) : ∀ (fuel : Nat) (acc : List Nat),
    gzipMembers (fuel + (k + 1)) ((List.replicate (k + 1) c8MemberBytes).flatten) acc =
      some (acc ++ (List.replicate (k + 1) c8MemberData).flatten) := by
  induction k with
  | zero =>
    intro fuel acc
    have h1 : (List.replicate 1 c8MemberBytes).flatten = c8MemberBytes ++ [] := rfl
    have h2 : (List.replicate 1 c8MemberData).flatten = c8MemberData ++ [] := rfl
    rw [h1, h2, gzMemStep]
    simp [List.dropWhile]
  | succ k ih =>
    intro fuel acc
    have h1 : (List.replicate (k + 1 + 1) c8MemberBytes).flatten =
        c8MemberBytes ++ (List.replicate (k + 1) c8MemberBytes).flatten := rfl
    have h2 : (List.replicate (k + 1 + 1) c8MemberData).flatten =
        c8MemberData ++ (List.replicate (k + 1) c8MemberData).flatten := rfl
    have hfuel : fuel + (k + 1 + 1) = (fuel + (k + 1)) + 1 := by omega
    have hcons : (List.replicate (k + 1) c8MemberBytes).flatten =
        31 :: (([139, 8, 0, 0, 0, 0, 0, 0, 255, 1, 40, 0, 215, 255] ++
          List.replicate 40 97 ++ [37, 138, 91, 201, 40, 0, 0, 0]) ++
          (List.replicate k c8MemberBytes).flatten) := rfl
    have hdw : ((List.replicate (k + 1) c8MemberBytes).flatten).dropWhile (fun x => decide (x = 0)) =
        (List.replicate (k + 1) c8MemberBytes).flatten := by
      rw [hcons, List.dropWhile_cons]
      norm_num
    have hne : ((List.replicate (k + 1) c8MemberBytes).flatten).isEmpty = false := by
      rw [hcons]; rfl
    rw [h1, h2, hfuel, gzMemStep, hdw, hne]
    rw [if_neg (by decide)]
    rw [ih fuel (acc ++ c8MemberData)]
    simp [List.append_assoc]

/-- Decoding the base64 of one claim-C8 member from the front of a base64
stream pushes the member bytes (reversed) onto the accumulator. -/
theorem b64BlockStep (rest : List Char) (acc : List Nat) :
    a2bBase64 (b64encodeChars c8MemberBytes ++ rest) 0 0 0 acc =
      a2bBase64 rest 0 0 0 (c8MemberBytes.reverse ++ acc) := rfl

/-- Base64-decoding `k` concatenated member encodings yields the
concatenated member bytes. -/
theorem b64Rep (k : Nat) : ∀ (acc : List Nat),
    a2bBase64 ((List.replicate k (b64encodeChars c8MemberBytes)).flatten) 0 0 0 acc =
      some (acc.reverse ++ (List.replicate k c8MemberBytes).flatten) := by
  induction k with
  | zero => intro acc; simp [a2bBase64]
  | succ k ih =>
    intro acc
    have h1 : (List.replicate (k + 1) (b64encodeChars c8MemberBytes)).flatten =
        b64encodeChars c8MemberBytes ++ (List.replicate k (b64encodeChars c8MemberBytes)).flatten := rfl
    have h2 : (List.replicate (k + 1) c8MemberBytes).flatten =
        c8MemberBytes ++ (List.replicate k c8MemberBytes).flatten := rfl
    rw [h1, h2, b64BlockStep, ih (c8MemberBytes.reverse ++ acc)]
    simp [List.reverse_append, List.append_assoc]

/-- The claim-C8 payload string is the concatenation of 501 member
encodings. -/
theorem c8PayloadChars :
    b64decode c8PayloadStr =
      a2bBase64 ((List.replicate 501 (b64encodeChars c8MemberBytes)).flatten) 0 0 0 [] := rfl

/-- Base64-decoding the claim-C8 payload yields 501 concatenated gzip
members. -/
theorem c8B64decode :
    b64decode c8PayloadStr = some ((List.replicate 501 c8MemberBytes).flatten) :=
  c8PayloadChars.trans ((b64Rep 501 []).trans (by rw [List.reverse_nil, List.nil_append]))

/-- Byte length of one claim-C8 member. -/
theorem c8MemLen : c8MemberBytes.length = 63 := by decide

/-- Byte length of the full claim-C8 gzip stream. -/
theorem c8AllLen : ((List.replicate 501 c8MemberBytes).flatten).length = 31563 := by
  rw [List.length_flatten, List.map_replicate, c8MemLen, List.sum_replicate, smul_eq_mul]

/-- The claim-C8 gzip stream is nonempty. -/
theorem c8AllNonempty : ((List.replicate 501 c8MemberBytes).flatten).isEmpty = false := rfl

/-- The claim-C8 gzip stream decompresses to the concatenated member
data. -/
theorem c8gz :
    gzipDecompress ((List.replicate 501 c8MemberBytes).flatten) =
      some ((List.replicate 501 c8MemberData).flatten) := by
  have h0 : gzipDecompress ((List.replicate 501 c8MemberBytes).flatten) =
      gzipMembers (((List.replicate 501 c8MemberBytes).flatten).length + 1)
        ((List.replicate 501 c8MemberBytes).flatten) [] := by
    simp only [gzipDecompress, c8AllNonempty]
    simp
  rw [h0, c8AllLen]
  have h : (31563 : Nat) + 1 = 31063 + (500 + 1) := by norm_num
  rw [h]
  exact (gzRep 500 31063 []).trans (by rw [List.nil_append])

/-- The full decode chain of the claim-C8 payload: base64 then gzip. -/
theorem c8Decode :
    gzB64Bytes c8PayloadStr = some ((List.replicate 501 c8MemberData).flatten) := by
  have h : gzB64Bytes c8PayloadStr = (b64decode c8PayloadStr).bind gzipDecompress := rfl
  rw [h, c8B64decode, Option.some_bind']
  exact c8gz

/-- The decoded claim-C8 payload is 20040 bytes. -/
theorem c8DataLen : ((List.replicate 501 c8MemberData).flatten).length = 20040 := by
  have h : c8MemberData.length = 40 := by decide
  rw [List.length_flatten, List.map_replicate, h, List.sum_replicate, smul_eq_mul]

/-- Value of the snapshot section on a well-formed `gz+b64` snapshot whose
payload decodes to more than 20000 bytes: no errors, one `W_SNAPSHOT`
warning. -/
theorem snapGzShape (path : String) (s : String) (raw : List Nat)
    (hdec : gzB64Bytes s = some raw) (hlen : raw.length > 20000) :
    MimoValidate.snapshotDiags path (Json.obj
      [("kind", Json.str "text"), ("codec", Json.str "gz+b64"), ("size_bytes", Json.int 20040),
       ("created_at", Json.str "2026-02-21T00:00:00Z"),
       ("source_ref", Json.obj
         [("uri", Json.str "vault://default/raw/a.txt"), ("sha256", Json.str sha0)]),
       ("payload", Json.obj [("text_gz_b64", Json.str s)]),
       ("meta", Json.obj [])]) =
      ([], [MimoValidate.err "W_SNAPSHOT" path "snapshot text > 20KB; consider splitting MU"]) := by
  simp [MimoValidate.snapshotDiags, Json.get, jsonLookup, Json.isDict, Json.eqStr,
    Json.truthy, hdec, hlen, sha0]

/-- The snapshot section of the claim-C8 record: one `W_SNAPSHOT` soft
warning and no errors. -/
theorem c8SnapDiags :
    MimoValidate.snapshotDiags "f.mimo" (Json.obj c8SnapEntries) =
      ([], [MimoValidate.err "W_SNAPSHOT" "f.mimo"
        "snapshot text > 20KB; consider splitting MU"]) :=
  snapGzShape "f.mimo" c8PayloadStr ((List.replicate 501 c8MemberData).flatten)
    c8Decode (by rw [c8DataLen]; decide)

/-- Full validator output on the claim-C8 record: no errors, exactly the
soft `W_SNAPSHOT` warning. -/
theorem c8StrictVal :
    MimoValidate.validate_data "f.mimo" (Json.obj c8StrictEntries) =
      ([], [MimoValidate.err "W_SNAPSHOT" "f.mimo"
        "snapshot text > 20KB; consider splitting MU"]) := by
  have hsv : pyStr (pyOr (Json.get (Json.obj c8StrictEntries) "schema_version")
      (Json.str "")) = "1.1" := rfl
  have hget : Json.get (Json.obj c8StrictEntries) "snapshot" = Json.obj c8SnapEntries := rfl
  have hreq : MimoValidate.requiredTopErrs "f.mimo" (Json.obj c8StrictEntries)
      MimoValidate.REQUIRED_TOP_V1_1 = [] := by decide
  have hschema : MimoValidate.schemaErrs "f.mimo" (Json.obj c8StrictEntries) "1.1" = [] := by decide
  have htype : MimoValidate.typeErrs "f.mimo" (Json.obj c8StrictEntries) = [] := by decide
  have hmeta : MimoValidate.metaOf (Json.obj c8StrictEntries) = Json.obj c8MetaEntries := rfl
  have hmreq : MimoValidate.metaRequiredErrs "f.mimo" (Json.obj c8MetaEntries) = [] := by decide
  have hsrc2 : MimoValidate.sourceTypeErrs "f.mimo" (Json.obj c8MetaEntries) = [] := by decide
  have hwarn : MimoValidate.metaWarns "f.mimo" (Json.obj c8StrictEntries)
      (Json.obj c8MetaEntries) "1.1" = [] := by decide
  have hptr : MimoValidate.pointerDiags "f.mimo"
      (Json.get (Json.obj c8StrictEntries) "pointer") = ([], []) := by decide
  simp only [MimoValidate.validate_data, hsv, hget, c8SnapDiags, hmeta, hptr]
  simp [hreq, hschema, htype, hmreq, hsrc2, hwarn]

/-- C8 (amended): in `mimo_validate.py`, a `gz+b64` payload string that
fails to base64-decode or gzip-decompress yields `E_SNAPSHOT`, and one that
decodes to more than 20000 bytes yields the soft `W_SNAPSHOT` warning; the
legacy validator `tools/mimo-validate.py` never inspects snapshot payloads —
its error codes are only `E_REQUIRED`, `E_TYPE` and `E_POINTER`, so no
oversized payload can yield a hard `E_SNAPSHOT` there. -/
theorem snapshot_c8_amended :
    (∀ (path : String) (l : List (String × Json)) (payload : Json) (s : String),
      ((Json.obj l).get "snapshot").isDict = true →
      ((Json.obj l).get "snapshot").get "codec" = .str "gz+b64" →
      ((Json.obj l).get "snapshot").get "payload" = payload → payload.isDict = true →
      payload.get "text_gz_b64" = .str s →
      (gzB64Bytes s = none →
        MimoValidate.err "E_SNAPSHOT" path "snapshot.payload not decodable" ∈
          (MimoValidate.validate_data path (.obj l)).1)
      ∧ (∀ raw, gzB64Bytes s = some raw → 20000 < raw.length →
        MimoValidate.err "W_SNAPSHOT" path "snapshot text > 20KB; consider splitting MU" ∈
          (MimoValidate.validate_data path (.obj l)).2))
    ∧ (∀ (path : String) (entries : List (String × Json)) (d : Diag),
        d ∈ (LegacyValidate.validate_data path entries).1 →
        d.code = "E_REQUIRED" ∨ d.code = "E_TYPE" ∨ d.code = "E_POINTER") := by
  constructor
  · intro path l payload s hdict hcodec hpayload hpdict htext
    rcases hsnap : (Json.obj l).get "snapshot" with _ | _ | _ | _ | _ | sl <;>
      rw [hsnap] at hdict <;> simp [Json.isDict] at hdict
    rw [hsnap] at hcodec hpayload
    constructor
    · intro hnone
      refine snapshot_errs_sub ?_
      rw [hsnap]
      simp only [MimoValidate.snapshotDiags, hcodec, hpayload]
      rw [if_neg (by simp [hpdict])]
      simp only [List.mem_append]
      right
      rw [htext]
      simp only [Json.eqStr, hnone]
      rw [if_pos (by decide)]
      simp
    · intro raw hsome hlen
      refine snapshot_warns_sub ?_
      rw [hsnap]
      simp only [MimoValidate.snapshotDiags, hcodec, hpayload]
      rw [if_neg (by simp [hpdict])]
      rw [htext]
      simp only [Json.eqStr, hsome]
      rw [if_pos (by decide), if_pos (by omega)]
      simp
  · intro path entries d h
    simp only [LegacyValidate.validate_data, List.mem_append] at h
    rcases h with ((h | h) | h) | h
    · rcases List.mem_map.mp h with ⟨k, _, hd⟩
      left; exact hd ▸ rfl
    · rcases h with (h2 | h2) | h2 <;> (right; left; exact (mem_ite_cons_nil h2) ▸ rfl)
    · rcases List.mem_map.mp h with ⟨k, _, hd⟩
      left; exact hd ▸ rfl
    · revert h
      split
      · intro h
        simp only [List.mem_flatten, List.mem_map] at h
        obtain ⟨sub, ⟨ip, _, hs⟩, hdm⟩ := h
        subst hs
        revert hdm
        split
        · intro hdm
          split at hdm
          · right; right; exact (List.mem_singleton.mp hdm) ▸ rfl
          · simp at hdm
        · intro hdm
          right; right; exact (List.mem_singleton.mp hdm) ▸ rfl
      · intro h; simp at h

/-- C8 (counterexample): a concrete `gz+b64` snapshot payload that decodes
to 20040 bytes — over the 20 KB cap — produces no hard `E_SNAPSHOT` in
either validator: `mimo_validate.py` returns no errors and exactly the soft
`W_SNAPSHOT` warning, and the legacy `tools/mimo-validate.py` returns no
errors at all, contradicting the claimed hard `E_SNAPSHOT` in a strict
validator variant. -/
theorem snapshot_c8_counterexample :
    gzB64Bytes c8PayloadStr = some ((List.replicate 501 c8MemberData).flatten)
    ∧ 20000 < ((List.replicate 501 c8MemberData).flatten).length
    ∧ MimoValidate.validate_data "f.mimo" (Json.obj c8StrictEntries) =
        ([], [MimoValidate.err "W_SNAPSHOT" "f.mimo"
          "snapshot text > 20KB; consider splitting MU"])
    ∧ (LegacyValidate.validate_data "f.mimo" c8LegacyEntries).1 = [] :=
  ⟨c8Decode, by rw [c8DataLen]; decide, c8StrictVal, by decide⟩

/-- C8 (witness): the amended theorem applied to a concrete record whose
`gz+b64` payload is base64 of `"hi"` (not a gzip stream), yielding the
`E_SNAPSHOT` decode error. -/
theorem snapshot_c8_witness :
    MimoValidate.err "E_SNAPSHOT" "w.mimo" "snapshot.payload not decodable" ∈
      (MimoValidate.validate_data "w.mimo" (Json.obj c8WitEntries)).1 :=
  (snapshot_c8_amended.1 "w.mimo" c8WitEntries
      (Json.obj [("text_gz_b64", Json.str "aGk")]) "aGk"
      (by decide) rfl rfl (by decide) rfl).1 (by decide)

/-- C3 (counterexample): a pointer whose `uri` is the bare path
`httpnotes.txt` resolves under the claim's reading (only `http(s)` schemes
declined) but `resolve_pointer_snippet` declines it, because the source
declines every `uri` that merely starts with `http`. -/
theorem resolve_c3_counterexample :
    MimoExtract.resolveClaimC3 c3Fs c3Pointer = some "hello\n"
    ∧ MimoExtract.resolve_pointer_snippet c3Fs c3Pointer = none := by
  constructor <;> decide

/-- C3 (amended): `resolve_pointer_snippet` agrees on every input with the
amended contract — truthy `path` field first; else `uri` with `file://`
stripped; `uri` beginning with `vault://` or `http` (any such prefix)
declined; else the `uri` as a bare path; an empty or non-string resolved
path declined. -/
theorem resolve_c3_amended (fs : String → Option (List String)) (pointer : Json) :
    MimoExtract.resolve_pointer_snippet fs pointer =
      MimoExtract.resolveClaimC3Amended fs pointer := rfl

/-- Evaluation of the resolver on an explicit-path `line_range` pointer over
an existing file with a valid range. -/
theorem c10Eval (fs : String → Option (List String)) (p : String) (lines : List String)
    (s e : Int) (hp : p ≠ "") (hfs : fs p = some lines) (h1 : 1 ≤ s) (hse : s ≤ e) :
    MimoExtract.resolve_pointer_snippet fs (c10Pointer p s e) =
      some (String.join ((lines.drop (s.toNat - 1)).take (e.toNat - (s.toNat - 1)))) := by
  have hlt : ¬(s < 1 ∨ e < s) := by omega
  simp [MimoExtract.resolve_pointer_snippet, c10Pointer, Json.get, jsonLookup,
    Json.isDict, Json.eqStr, Json.truthy, Json.asPyInt, hlt, hp, hfs]

/-- C10: on a valid `line_range` pointer to an existing file, an `end`
beyond the file's line count silently truncates — the result is the lines
from `start` to end-of-file — and a `start` beyond the line count yields the
empty string rather than the absent result. -/
theorem resolve_c10 (fs : String → Option (List String)) (p : String) (lines : List String)
    (s e : Int) (hp : p ≠ "") (hfs : fs p = some lines) (h1 : 1 ≤ s) (hse : s ≤ e) :
    (lines.length < e.toNat →
      MimoExtract.resolve_pointer_snippet fs (c10Pointer p s e) =
        some (String.join (lines.drop (s.toNat - 1))))
    ∧ (lines.length < s.toNat →
      MimoExtract.resolve_pointer_snippet fs (c10Pointer p s e) = some "") := by
  constructor
  · intro he
    rw [c10Eval fs p lines s e hp hfs h1 hse]
    congr 2
    have hlen : (lines.drop (s.toNat - 1)).length ≤ e.toNat - (s.toNat - 1) := by
      rw [List.length_drop]; omega
    rw [List.take_of_length_le hlen]
  · intro hs
    rw [c10Eval fs p lines s e hp hfs h1 hse]
    have hdrop : lines.drop (s.toNat - 1) = [] := List.drop_eq_nil_of_le (by omega)
    rw [hdrop]
    simp [String.join]

/-- Inserting an element whose key equals `k` commutes with filtering on
key `k`: every element skipped by the ordered insertion has a smaller
key. -/
theorem filter_orderedInsert_pos (k : Int) (x : Json) (l : List Json)
    (hpx : c7Key k x = true) :
    (List.orderedInsert MimoExtract.muOrderLe x l).filter (c7Key k) =
      x :: l.filter (c7Key k) := by
  induction l with
  | nil => simp [List.orderedInsert, hpx]
  | cons b t ih =>
    simp only [List.orderedInsert]
    split
    · simp [List.filter_cons, hpx]
    · next hnr =>
      have hpb : c7Key k b = false := by
        simp only [c7Key, decide_eq_true_eq] at hpx ⊢
        simp only [MimoExtract.muOrderLe] at hnr
        simp only [decide_eq_false_iff_not]
        omega
      rw [List.filter_cons, List.filter_cons, hpb, ih]
      simp [hpb]

/-- Inserting an element whose key differs from `k` leaves the key-`k`
filter unchanged. -/
theorem filter_orderedInsert_neg (k : Int) (x : Json) (l : List Json)
    (hpx : c7Key k x = false) :
    (List.orderedInsert MimoExtract.muOrderLe x l).filter (c7Key k) =
      l.filter (c7Key k) := by
  induction l with
  | nil => simp [List.orderedInsert, hpx]
  | cons b t ih =>
    simp only [List.orderedInsert]
    split
    · simp [List.filter_cons, hpx]
    · rw [List.filter_cons, List.filter_cons, ih]

/-- Stability of the group sort: the subsequence of MUs with any fixed sort
key is preserved. -/
theorem filter_sortGroup (k : Int) (mus : List Json) :
    (MimoExtract.sortGroup mus).filter (c7Key k) = mus.filter (c7Key k) := by
  induction mus with
  | nil => rfl
  | cons x t ih =>
    show (List.orderedInsert _ x (List.insertionSort _ t)).filter _ = _
    simp only [MimoExtract.sortGroup] at ih
    rcases hpx : c7Key k x with _ | _
    · rw [filter_orderedInsert_neg k x _ hpx, ih, List.filter_cons, hpx]
      simp
    · rw [filter_orderedInsert_pos k x _ hpx, ih, List.filter_cons, hpx]
      simp

/-- C7: the within-group sort is a permutation, sorted by the `order_key`
comparator, and stable (the subsequence at each key value is preserved);
`order_key` parses the leading integers of `"1/3"` and `"2/3"`, and the two
MUs reassemble with the `"1/3"` MU first from either input order. -/
theorem group_order_c7 :
    (∀ mus : List Json, (MimoExtract.sortGroup mus).Perm mus)
    ∧ (∀ mus : List Json, List.Sorted MimoExtract.muOrderLe (MimoExtract.sortGroup mus))
    ∧ (∀ (k : Int) (mus : List Json),
        (MimoExtract.sortGroup mus).filter (c7Key k) = mus.filter (c7Key k))
    ∧ MimoExtract.order_key (c7Mu1.getD "meta" (.obj [])) = 1
    ∧ MimoExtract.order_key (c7Mu2.getD "meta" (.obj [])) = 2
    ∧ MimoExtract.sortGroup [c7Mu2, c7Mu1] = [c7Mu1, c7Mu2]
    ∧ MimoExtract.sortGroup [c7Mu1, c7Mu2] = [c7Mu1, c7Mu2] :=
  ⟨fun _ => List.perm_insertionSort _ _,
   fun _ => List.sorted_insertionSort _ _,
   filter_sortGroup,
   by decide, by decide, rfl, rfl⟩

/-- Code-point comparison is irreflexive. -/
theorem charsLt_irrefl : ∀ (a : List Char), charsLt a a = false := by
  intro a
  induction a with
  | nil => rfl
  | cons x xs ih => simp [charsLt, ih]

/-- Code-point comparison is transitive. -/
theorem charsLt_trans : ∀ (a b c : List Char),
    charsLt a b = true → charsLt b c = true → charsLt a c = true := by
  intro a
  induction a with
  | nil =>
    intro b c h1 h2
    cases b with
    | nil => simp [charsLt] at h1
    | cons y ys =>
      cases c with
      | nil => simp [charsLt] at h2
      | cons z zs => rfl
  | cons x xs ih =>
    intro b c h1 h2
    cases b with
    | nil => simp [charsLt] at h1
    | cons y ys =>
      cases c with
      | nil => simp [charsLt] at h2
      | cons z zs =>
        simp only [charsLt] at h1 h2 ⊢
        split_ifs at h1 h2 ⊢ <;>
          first
            | rfl
            | omega
            | (exact ih ys zs h1 h2)

/-- Two lists neither of which is below the other are equal. -/
theorem charsLt_eq_of_not : ∀ (a b : List Char),
    charsLt a b = false → charsLt b a = false → a = b := by
  intro a
  induction a with
  | nil =>
    intro b h1 _
    cases b with
    | nil => rfl
    | cons y ys => simp [charsLt] at h1
  | cons x xs ih =>
    intro b h1 h2
    cases b with
    | nil => simp [charsLt] at h2
    | cons y ys =>
      simp only [charsLt] at h1 h2
      split_ifs at h1 h2 <;> try simp_all
      have hx : x = y := by
        have : x.toNat = y.toNat := by omega
        calc x = Char.ofNat x.toNat := (Char.ofNat_toNat x).symm
          _ = Char.ofNat y.toNat := by rw [this]
          _ = y := Char.ofNat_toNat y
      exact ⟨hx, ih ys h1 h2⟩

/-- The Python string order is total. -/
theorem strLeB_total (a b : String) : strLeB a b = true ∨ strLeB b a = true := by
  simp only [strLeB, strLtB, Bool.not_eq_true']
  by_contra h
  push_neg at h
  obtain ⟨h1, h2⟩ := h
  rw [Bool.ne_false_iff] at h1 h2
  have := charsLt_trans _ _ _ h1 h2
  rw [charsLt_irrefl] at this
  exact Bool.false_ne_true this

/-- The Python string order is transitive. -/
theorem strLeB_trans (a b c : String) (h1 : strLeB a b = true) (h2 : strLeB b c = true) :
    strLeB a c = true := by
  simp only [strLeB, strLtB, Bool.not_eq_true'] at h1 h2 ⊢
  rcases hbc : charsLt b.data c.data with _ | _
  · have : b.data = c.data := charsLt_eq_of_not _ _ hbc h2
    rw [← this]; exact h1
  · by_contra hca
    rw [Bool.not_eq_false] at hca
    have := charsLt_trans _ _ _ hbc hca
    rw [h1] at this
    exact Bool.false_ne_true this

/-- The Python string order is antisymmetric. -/
theorem strLeB_antisymm (a b : String) (h1 : strLeB a b = true) (h2 : strLeB b a = true) :
    a = b := by
  simp only [strLeB, strLtB, Bool.not_eq_true'] at h1 h2
  have := charsLt_eq_of_not _ _ h2 h1
  cases a; cases b
  exact congrArg String.mk this

instance : IsTotal (String × String) entryKeyLe :=
  ⟨fun a b => by
    simp only [entryKeyLe]
    exact strLeB_total a.1 b.1⟩

instance : IsTrans (String × String) entryKeyLe :=
  ⟨fun a b c h1 h2 => strLeB_trans a.1 b.1 c.1 h1 h2⟩

/-- Two key-sorted entry lists that are permutations of each other with
distinct keys are equal. -/
theorem sorted_nodupkeys_perm_eq : ∀ (u v : List (String × String)),
    u.Perm v → u.Sorted entryKeyLe → v.Sorted entryKeyLe →
    (u.map Prod.fst).Nodup → u = v := by
  intro u
  induction u with
  | nil => intro v hp _ _ _; exact (hp.nil_eq).symm ▸ rfl
  | cons a t ih =>
    intro v hp hsu hsv hnd
    cases v with
    | nil => exact absurd hp.symm (by simp)
    | cons b w =>
      have hab : a = b := by
        have hbmem : b ∈ a :: t := hp.symm.subset (List.mem_cons_self b w)
        have hamem : a ∈ b :: w := hp.subset (List.mem_cons_self a t)
        rcases List.mem_cons.mp hbmem with h | hbt
        · exact h.symm
        rcases List.mem_cons.mp hamem with h | haw
        · exact h
        have h1 : entryKeyLe a b := (List.sorted_cons.mp hsu).1 b hbt
        have h2 : entryKeyLe b a := (List.sorted_cons.mp hsv).1 a haw
        have hk : a.1 = b.1 := strLeB_antisymm a.1 b.1 h1 h2
        exfalso
        have : a.1 ∈ t.map Prod.fst := hk ▸ List.mem_map_of_mem Prod.fst hbt
        exact (List.nodup_cons.mp hnd).1 this
      subst hab
      have hpt : t.Perm w := hp.cons_inv
      rw [ih w hpt (List.sorted_cons.mp hsu).2 (List.sorted_cons.mp hsv).2
        (List.nodup_cons.mp hnd).2]

/-- Serializing a dict's entries is a map over the entry list. -/
theorem canonicalEntries_eq_map (l : List (String × Json)) :
    canonicalEntries l = l.map fun e => (e.1, canonical_json e.2) := by
  induction l with
  | nil => rfl
  | cons e t ih => cases e; simp [canonicalEntries, ih]

/-- C1: two mapping values whose key-value-pair lists are permutations of
each other (with distinct keys) canonicalize to the identical string, and
therefore to the same `sha256_prefixed` hash. -/
theorem canonical_hash_c1 (l1 l2 : List (String × Json))
    (hperm : l1.Perm l2) (hnodup : (l1.map Prod.fst).Nodup) :
    canonical_json (.obj l1) = canonical_json (.obj l2)
    ∧ sha256_prefixed (utf8Encode (canonical_json (.obj l1))) =
        sha256_prefixed (utf8Encode (canonical_json (.obj l2))) := by
  have hperm2 : (canonicalEntries l1).Perm (canonicalEntries l2) := by
    rw [canonicalEntries_eq_map, canonicalEntries_eq_map]
    exact hperm.map _
  have hkeys1 : ((canonicalEntries l1).map Prod.fst).Nodup := by
    rw [canonicalEntries_eq_map, List.map_map]
    simpa [Function.comp] using hnodup
  have hs1 : sortEntries (canonicalEntries l1) = sortEntries (canonicalEntries l2) := by
    apply sorted_nodupkeys_perm_eq
    · exact (List.perm_insertionSort _ _).trans
        (hperm2.trans (List.perm_insertionSort _ _).symm)
    · exact List.sorted_insertionSort _ _
    · exact List.sorted_insertionSort _ _
    · exact (((List.perm_insertionSort entryKeyLe
        (canonicalEntries l1)).map Prod.fst).nodup_iff).mpr hkeys1
  have hcan : canonical_json (.obj l1) = canonical_json (.obj l2) := by
    simp only [canonical_json, sortEntries] at hs1 ⊢
    rw [hs1]
  exact ⟨hcan, congrArg (fun s => sha256_prefixed (utf8Encode s)) hcan⟩

/-- C1 (witness): the two-key mapping written in either key order — keys
distinct, entry lists permutations of each other — canonicalizes to the
identical string. -/
theorem canonical_hash_c1_witness :
    ([("b", Json.int 2), ("a", Json.int 1)] : List (String × Json)).map Prod.fst = ["b", "a"]
    ∧ canonical_json (Json.obj [("b", Json.int 2), ("a", Json.int 1)]) =
        canonical_json (Json.obj [("a", Json.int 1), ("b", Json.int 2)]) :=
  ⟨rfl,
   (canonical_hash_c1 [("b", Json.int 2), ("a", Json.int 1)]
     [("a", Json.int 1), ("b", Json.int 2)]
     (List.Perm.swap ("a", Json.int 1) ("b", Json.int 2) [])
     (by decide)).1⟩

/-- Distributing a dedup-tracked run over an append of candidate lists. -/
theorem packRun_append (l1 l2 : List MimoPack.MuCand) (seen : List String) :
    MimoPack.packRun (l1 ++ l2) seen =
      ((MimoPack.packRun l1 seen).1 ++
        (MimoPack.packRun l2 (MimoPack.packRun l1 seen).2).1,
       (MimoPack.packRun l2 (MimoPack.packRun l1 seen).2).2) := by
  induction l1 generalizing seen with
  | nil => simp [MimoPack.packRun]
  | cons c t ih =>
    simp only [List.cons_append, MimoPack.packRun, ih]
    split <;> simp [ih]

/-- A run over candidates whose keys are fresh and mutually distinct emits
every candidate and records every key. -/
theorem packRun_fresh (cands : List MimoPack.MuCand) : ∀ (seen : List String),
    (∀ c ∈ cands, c.mu_key ∉ seen) →
    ((cands.map MimoPack.MuCand.mu_key).Nodup) →
    MimoPack.packRun cands seen =
      (cands, (cands.map MimoPack.MuCand.mu_key).reverse ++ seen) := by
  induction cands with
  | nil => intro seen _ _; simp [MimoPack.packRun]
  | cons c t ih =>
    intro seen hfresh hnodup
    simp only [MimoPack.packRun, MimoPack.write_mu_v1_1]
    rw [if_neg (hfresh c (by simp))]
    have hnd : (c.mu_key ∉ t.map MimoPack.MuCand.mu_key) ∧
        (t.map MimoPack.MuCand.mu_key).Nodup := by
      rw [List.map_cons] at hnodup; exact List.nodup_cons.mp hnodup
    rw [ih (c.mu_key :: seen) ?hf ?hn]
    case hf =>
      intro d hd
      simp only [List.mem_cons, not_or]
      constructor
      · intro heq
        exact hnd.1 (heq ▸ List.mem_map_of_mem MimoPack.MuCand.mu_key hd)
      · exact hfresh d (List.mem_cons_of_mem c hd)
    case hn => exact hnd.2
    simp

/-- A run over candidates whose keys are all already in the dedup set emits
nothing. -/
theorem packRun_seen (cands : List MimoPack.MuCand) : ∀ (seen : List String),
    (∀ c ∈ cands, c.mu_key ∈ seen) →
    MimoPack.packRun cands seen = ([], seen) := by
  induction cands with
  | nil => intro seen _; rfl
  | cons c t ih =>
    intro seen hseen
    simp only [MimoPack.packRun, MimoPack.write_mu_v1_1]
    rw [if_pos (hseen c (by simp))]
    rw [ih seen fun d hd => hseen d (List.mem_cons_of_mem c hd)]
    simp

/-- C2: `write_mu_v1_1` emits exactly when the `mu_key` is not yet in the
run-scoped dedup set, and packing the same candidate sequence twice within
one dedup-tracked run (distinct `mu_key`s per unique triple) emits each
candidate exactly once — the first pass survives, the second is skipped. -/
theorem dedup_c2 (cands : List MimoPack.MuCand)
    (hkeys : (cands.map MimoPack.MuCand.mu_key).Nodup) :
    (∀ (key : String) (seen : List String),
      (MimoPack.write_mu_v1_1 key seen).1 = true ↔ key ∉ seen)
    ∧ MimoPack.packRun (cands ++ cands) [] =
        (cands, (cands.map MimoPack.MuCand.mu_key).reverse) := by
  constructor
  · intro key seen
    simp only [MimoPack.write_mu_v1_1]
    split <;> simp_all
  · rw [packRun_append, packRun_fresh cands [] (by simp) hkeys]
    rw [packRun_seen cands _ ?hall]
    case hall =>
      intro c hc
      simp [List.mem_reverse, List.mem_map_of_mem MimoPack.MuCand.mu_key hc]
    simp

set_option maxRecDepth 40000 in
/-- C2 (witness): the two-window split of a three-line raw input has
distinct `mu_key`s, and packing it twice in one run emits exactly the two
windows once. -/
theorem dedup_c2_witness :
    ((MimoPack.chunkCands "sha256:r" 3 2).map MimoPack.MuCand.mu_key).Nodup
    ∧ MimoPack.packRun
        (MimoPack.chunkCands "sha256:r" 3 2 ++ MimoPack.chunkCands "sha256:r" 3 2) [] =
        (MimoPack.chunkCands "sha256:r" 3 2,
         ((MimoPack.chunkCands "sha256:r" 3 2).map MimoPack.MuCand.mu_key).reverse) :=
  ⟨by decide, (dedup_c2 _ (by decide)).2⟩

/-- C10 (witness): on a two-line file, `end = 5` truncates to the lines from
`start = 2`, and `start = 3` yields the empty string. -/
theorem resolve_c10_witness :
    (["a\n", "b\n"] : List String).length < (5 : Int).toNat
    ∧ MimoExtract.resolve_pointer_snippet c10Fs (c10Pointer "notes.txt" 2 5) = some "b\n"
    ∧ (["a\n", "b\n"] : List String).length < (3 : Int).toNat
    ∧ MimoExtract.resolve_pointer_snippet c10Fs (c10Pointer "notes.txt" 3 3) = some "" := by
  refine ⟨by decide, ?_, by decide, ?_⟩
  · rw [(resolve_c10 c10Fs "notes.txt" ["a\n", "b\n"] 2 5 (by decide) (by decide)
      (by decide) (by decide)).1 (by decide)]
    decide
  · rw [(resolve_c10 c10Fs "notes.txt" ["a\n", "b\n"] 3 3 (by decide) (by decide)
      (by decide) (by decide)).2 (by decide)]
